import Mathlib

/-! # ramses: `FileUtils::ReadAllBytes` and the `TestScenes` registry

A shallow embedding of

* `framework/Core/Utils/include/Utils/FileUtils.h` (`WriteAllBytes`, `ReadAllBytes`),
* `integration/SandwichTests/RendererTests/RendererTestFramework/TestScenes.h`
  (`createScene` in both overloads, `setSceneState`; `getScene` and `destroyScene`, whose bodies
  are not in the header, follow the specification),

followed by the properties established about them.

Conventions.

* `ramses_capu::uint_t` is a machine word of `w` bits; `w` is a parameter of the embedding
  because the typedef lives in a header that is not part of the sources.  The counter
  `totalBytesRead` is a natural number reduced modulo `2 ^ w` after every addition.  The
  destination pointer `vectorPtr` is a machine word of the same width; it is represented by its
  offset from `result.data()`, reduced modulo `2 ^ w` after every addition as well.
* The platform file (`ramses_capu::File`) is an arbitrary deterministic device: a size query and
  a `read` that maps a device state and a requested length to a reply and a next device state.
* The `while` loop is unfolded with a fuel argument; `none` means that the fuel ran out before the
  loop condition became false.
-/

namespace ramses_capu

/-- Modelled from the spec: the status codes of the platform layer (`ramses_capu::status_t`,
declared in a header that is not part of the sources).  The spec names OK, Error variants and an
EOF marker; `CAPU_EINVAL` stands for a further Error variant. -/
inductive status_t where
  | CAPU_OK
  | CAPU_ERROR
  | CAPU_EOF
  | CAPU_EINVAL
  deriving DecidableEq, Repr

end ramses_capu

namespace ramses_internal

open ramses_capu

/-- An 8-bit value (`ramses_internal::Byte`). -/
abbrev Byte := Fin 256

/-- Modelled from the spec: `EStatus` carries the numeric value of a `status_t`
(`static_cast<EStatus>`), so both are represented by the same type. -/
abbrev EStatus := status_t

/-- The call `Vector<Byte>::resize(n)`: the first `n` elements are kept, missing elements are
value-initialised (zero). -/
def resize (v : List Byte) (n : Nat) : List Byte :=
  v.take n ++ List.replicate (n - v.length) 0

/-- Effect on the vector of a primitive that stores `data` through a pointer which is `off` bytes
past `result.data()`.  Bytes that would land behind the last element are outside the vector and do
not belong to its value. -/
def storeAt (buf : List Byte) (off : Nat) (data : List Byte) : List Byte :=
  buf.take off ++ data.take (buf.length - off) ++ buf.drop (off + data.length)

/-- What one call of `ramses_capu::File::read(buffer, length, numBytes)` leaves behind: the
returned status, the value of `numBytes` after the call (the caller initialises it to `0`), and
the bytes stored through `buffer`. -/
structure ReadReply where
  status : status_t
  numBytes : Nat
  data : List Byte
  deriving DecidableEq, Repr

/-- Modelled from the spec: the platform file behind one path (`ramses_capu::File`, whose
implementation is not part of the sources).  `getSizeInBytes` gives the status of the size query
and the value stored into `fileSize`; `read` is the read primitive, driven by a device state of
type `σ`.  Sizes and byte counts are `uint_t` values. -/
structure File (σ : Type) where
  getSizeInBytes : status_t × Nat
  read : σ → Nat → ReadReply × σ

/-- The calls `ReadAllBytes` issues on the platform file.  A `read` records the offset of the
destination pointer from `result.data()` and the requested length. -/
inductive FileCall where
  | open
  | read (offset length : Nat)
  | close
  deriving DecidableEq, Repr

/-- The local variables of `ReadAllBytes` while the loop runs, the device state, and the calls
issued so far. -/
structure LoopState (σ : Type) where
  result : List Byte
  totalBytesRead : Nat
  vectorPtr : Nat
  retVal : status_t
  dev : σ
  calls : List FileCall

/-- The `while (totalBytesRead < fileSize)` loop of `ReadAllBytes`. -/
def readLoop {σ : Type} (w : Nat) (file : File σ) (fileSize : Nat) :
    Nat → LoopState σ → Option (LoopState σ)
  | 0, st => if st.totalBytesRead < fileSize then none else some st
  | fuel + 1, st =>
    if st.totalBytesRead < fileSize then
      let r := file.read st.dev (fileSize - st.totalBytesRead)
      let st1 : LoopState σ :=
        { result := storeAt st.result st.vectorPtr r.1.data
          totalBytesRead := st.totalBytesRead
          vectorPtr := st.vectorPtr
          retVal := r.1.status
          dev := r.2
          calls := st.calls ++ [FileCall.read st.vectorPtr (fileSize - st.totalBytesRead)] }
      if r.1.status = status_t.CAPU_EOF then some st1
      else if r.1.status ≠ status_t.CAPU_OK then some st1
      else if r.1.numBytes = 0 then some st1
      else
        readLoop w file fileSize fuel
          { st1 with
            totalBytesRead := (st.totalBytesRead + r.1.numBytes) % 2 ^ w
            vectorPtr := (st.vectorPtr + r.1.numBytes) % 2 ^ w }
    else some st

/-- What the caller of `ReadAllBytes` observes: the returned status and the vector, together with
the calls issued on the file, the final value of `totalBytesRead` (`0` when the function returns
before the variable exists) and the final device state. -/
structure ReadAllBytesOutcome (σ : Type) where
  status : EStatus
  result : List Byte
  calls : List FileCall
  totalBytesRead : Nat
  dev : σ
  deriving DecidableEq, Repr

/-- The function `FileUtils::ReadAllBytes(File& file, Vector<Byte>& result)`. -/
def ReadAllBytes {σ : Type} (w fuel : Nat) (file : File σ) (dev : σ) (result : List Byte) :
    Option (ReadAllBytesOutcome σ) :=
  if file.getSizeInBytes.1 ≠ status_t.CAPU_OK then
    some { status := status_t.CAPU_ERROR, result := result, calls := [],
           totalBytesRead := 0, dev := dev }
  else
    let fileSize := file.getSizeInBytes.2
    match readLoop w file fileSize fuel
        { result := resize result fileSize
          totalBytesRead := 0
          vectorPtr := 0
          retVal := status_t.CAPU_ERROR
          dev := dev
          calls := [FileCall.open] } with
    | none => none
    | some st =>
      some { status := st.retVal, result := st.result, calls := st.calls ++ [FileCall.close],
             totalBytesRead := st.totalBytesRead, dev := st.dev }

/-- Number of `read` calls in a call log. -/
def readCount (calls : List FileCall) : Nat :=
  (calls.filter fun c => match c with
    | FileCall.read _ _ => true
    | _ => false).length

/-- The loop state in which `ReadAllBytes` enters its loop: the vector resized to the queried
size, both counters at the start, `retVal` initialised to the Error status, the file opened. -/
def loopStart {σ : Type} (dev : σ) (result : List Byte) (fileSize : Nat) : LoopState σ :=
  { result := resize result fileSize
    totalBytesRead := 0
    vectorPtr := 0
    retVal := status_t.CAPU_ERROR
    dev := dev
    calls := [FileCall.open] }

/-- One `read` call of the loop as the loop sees it: the offset of the destination pointer, the
requested length, the value of `totalBytesRead` when the call is issued, and the reply. -/
structure ReadEvent where
  offset : Nat
  length : Nat
  counted : Nat
  reply : ReadReply
  deriving DecidableEq, Repr

/-- Whether the reply of a read makes the loop exit: EOF, a status other than OK, or OK with zero
bytes transferred. -/
def ReadEvent.stops (e : ReadEvent) : Bool :=
  decide (e.reply.status = status_t.CAPU_EOF) || decide (e.reply.status ≠ status_t.CAPU_OK)
    || decide (e.reply.numBytes = 0)

/-- The entry of the call log that belongs to a read. -/
def ReadEvent.toCall (e : ReadEvent) : FileCall :=
  FileCall.read e.offset e.length

/-- The reads that the loop of `ReadAllBytes` issues from a loop state, in order, each with its
reply.  The function follows `readLoop` iteration by iteration. -/
def readEvents {σ : Type} (w : Nat) (file : File σ) (fileSize : Nat) :
    Nat → LoopState σ → List ReadEvent
  | 0, _ => []
  | fuel + 1, st =>
    if st.totalBytesRead < fileSize then
      let r := file.read st.dev (fileSize - st.totalBytesRead)
      let e : ReadEvent :=
        { offset := st.vectorPtr
          length := fileSize - st.totalBytesRead
          counted := st.totalBytesRead
          reply := r.1 }
      if r.1.status = status_t.CAPU_EOF then [e]
      else if r.1.status ≠ status_t.CAPU_OK then [e]
      else if r.1.numBytes = 0 then [e]
      else
        e :: readEvents w file fileSize fuel
          { result := storeAt st.result st.vectorPtr r.1.data
            totalBytesRead := (st.totalBytesRead + r.1.numBytes) % 2 ^ w
            vectorPtr := (st.vectorPtr + r.1.numBytes) % 2 ^ w
            retVal := r.1.status
            dev := r.2
            calls := st.calls ++ [FileCall.read st.vectorPtr (fileSize - st.totalBytesRead)] }
    else []

/-! ### The filesystem behind `WriteAllBytes` -/

/-- Modelled from the spec: the platform filesystem.  A path either has no file or holds a byte
sequence; `writable` tells whether opening the path for writing and writing to it succeed. -/
structure FileSystem where
  content : String → Option (List Byte)
  writable : String → Bool

/-- Modelled from the spec: `ramses_capu::FileUtils::writeAllBytes`, which is not part of the
sources: "writes a binary buffer, truncating any existing content; fails with I/O error
on open/write failure". -/
def capuWriteAllBytes (fs : FileSystem) (path : String) (buffer : List Byte)
    (numberOfBytesToWrite : Nat) : status_t × FileSystem :=
  if fs.writable path then
    (status_t.CAPU_OK,
      { fs with content := fun p => if p = path then some (buffer.take numberOfBytesToWrite)
                                     else fs.content p })
  else (status_t.CAPU_ERROR, fs)

/-- The function `FileUtils::WriteAllBytes(File& file, const Byte* buffer, UInt32 n)`: it forwards
to the platform and casts the status. -/
def WriteAllBytes (fs : FileSystem) (path : String) (buffer : List Byte)
    (numberOfBytesToWrite : Nat) : EStatus × FileSystem :=
  capuWriteAllBytes fs path buffer numberOfBytesToWrite

/-- Modelled from the spec: the platform file of `path` in the filesystem `fs`.  The size query
reports the length of the stored content; a read at position `pos` delivers the next bytes of the
content, reports OK when it could deliver the requested length and EOF when the content ended
first.  The device state is the read position. -/
def diskFile (fs : FileSystem) (path : String) : File Nat :=
  match fs.content path with
  | none =>
    { getSizeInBytes := (status_t.CAPU_ERROR, 0)
      read := fun pos _ => ({ status := status_t.CAPU_ERROR, numBytes := 0, data := [] }, pos) }
  | some F =>
    { getSizeInBytes := (status_t.CAPU_OK, F.length)
      read := fun pos length =>
        let chunk := (F.drop pos).take length
        ({ status := if chunk.length = length then status_t.CAPU_OK else status_t.CAPU_EOF
           numBytes := chunk.length
           data := chunk }, pos + chunk.length) }

/-- A filesystem without files in which every path can be written. -/
def emptyFileSystem : FileSystem :=
  { content := fun _ => none, writable := fun _ => true }

/-- A file of content `F` whose read primitive delivers the content in chunks: `pick` maps the
chooser state and the requested length to the length of the next chunk.  Every read reports OK.
The device state is the chooser state and the read position. -/
def chunkedFile {τ : Type} (F : List Byte) (pick : τ → Nat → Nat × τ) : File (τ × Nat) :=
  { getSizeInBytes := (status_t.CAPU_OK, F.length)
    read := fun d length =>
      let k := (pick d.1 length).1
      ({ status := status_t.CAPU_OK, numBytes := k, data := (F.drop d.2).take k },
        ((pick d.1 length).2, d.2 + k)) }

end ramses_internal

/-! ### The scene registry `TestScenes` -/

namespace ramses

/-- Modelled from the spec: `ramses::sceneId_t` is declared in the client API headers, which are
not part of the sources.  The spec calls a scene identity an unsigned integer key that is
incremented on each creation and never reused, so identities are natural numbers. -/
abbrev sceneId_t := Nat

/-- A client scene object (`ramses::Scene`), named by a number.  A `ramses::Scene*` is an
`Option Scene`, `none` being the null pointer. -/
abbrev Scene := Nat

/-- Modelled from the spec: `ramses::SceneConfig`, an opaque structure passed through unmodified
to scene creation. -/
structure SceneConfig where
  tag : Nat
  deriving DecidableEq, Repr

/-- Modelled from the spec: the scene-producing collaborator (`ramses::RamsesClient`, not part of
the sources).  `respond` is its behaviour: from the requests received so far and the current
request it yields a scene pointer, possibly null.  `requests` are the requests received so far,
`released` the scenes it was asked to release. -/
structure RamsesClient where
  respond : List (sceneId_t × SceneConfig) → sceneId_t → SceneConfig → Option Scene
  requests : List (sceneId_t × SceneConfig)
  released : List Scene := []

/-- The call `m_client.createScene(sceneId, sceneConfig)`. -/
def RamsesClient.createScene (c : RamsesClient) (sceneId : sceneId_t) (sceneConfig : SceneConfig) :
    Option Scene × RamsesClient :=
  (c.respond c.requests sceneId sceneConfig,
    { c with requests := c.requests ++ [(sceneId, sceneConfig)] })

/-- Modelled from the spec: the release path of the collaborator, "an implicit release path
invoked during DestroyScene". -/
def RamsesClient.destroy (c : RamsesClient) (scene : Scene) : RamsesClient :=
  { c with released := c.released ++ [scene] }

end ramses

namespace ramses_internal

/-- Modelled from the spec: `ramses_internal::Vector3`, the camera position.  The registry hands
the position to the test logic and never computes with its components. -/
structure Vector3 where
  x : Int
  y : Int
  z : Int
  deriving DecidableEq, Repr

/-- Modelled from the spec: the test logic (`ramses_internal::IntegrationScene` and its
subclasses, not part of the sources): "constructed with a reference to the client scene, an
initial state value, and a spatial parameter (camera position)".  `variant` names the class chosen
by the template argument `INTEGRATION_SCENE`, `scene` is the pointer that was dereferenced for the
constructor, and `setStateCalls` lists the values `setState` was invoked with, oldest first. -/
structure IntegrationScene where
  variant : Nat
  scene : Option ramses.Scene
  state : Nat
  cameraPosition : Vector3
  setStateCalls : List Nat
  deriving DecidableEq, Repr

/-- The expression `new INTEGRATION_SCENE(m_client, *data.clientScene, state, cameraPosition)`. -/
def IntegrationScene.construct (variant : Nat) (clientScene : Option ramses.Scene) (state : Nat)
    (cameraPosition : Vector3) : IntegrationScene :=
  { variant := variant, scene := clientScene, state := state, cameraPosition := cameraPosition,
    setStateCalls := [] }

/-- The call `scene.setState(state)`, the state-transition entry point of the test logic. -/
def IntegrationScene.setState (scene : IntegrationScene) (state : Nat) : IntegrationScene :=
  { scene with setStateCalls := scene.setStateCalls ++ [state] }

end ramses_internal

open ramses ramses_internal

/-- The record `TestScenes::SceneData`; both pointers default to null. -/
structure SceneData where
  clientScene : Option Scene := none
  integrationScene : Option IntegrationScene := none
  deriving DecidableEq, Repr

/-- Modelled from the spec: `TestScenes::SceneMap`, a `ramses_internal::HashMap` from scene
identities to `SceneData` (the container is not part of the sources), as an association list. -/
abbrev SceneMap := List (sceneId_t × SceneData)

/-- The lookup `m_scenes.get(sceneId)`: a pointer to the stored value, null when absent. -/
def SceneMap.get : SceneMap → sceneId_t → Option SceneData
  | [], _ => none
  | (k, v) :: m, sceneId => if k = sceneId then some v else SceneMap.get m sceneId

/-- The test `m_scenes.contains(sceneId)`. -/
def SceneMap.contains (m : SceneMap) (sceneId : sceneId_t) : Bool :=
  (SceneMap.get m sceneId).isSome

/-- The call `m_scenes.remove(sceneId)`: the entry of the key, if there is one, is dropped. -/
def SceneMap.remove : SceneMap → sceneId_t → SceneMap
  | [], _ => []
  | (k, v) :: m, sceneId =>
    if k = sceneId then SceneMap.remove m sceneId else (k, v) :: SceneMap.remove m sceneId

/-- The call `m_scenes.put(sceneId, data)`: the value is stored under the key, in place of a
value stored there before. -/
def SceneMap.put (m : SceneMap) (sceneId : sceneId_t) (data : SceneData) : SceneMap :=
  (sceneId, data) :: SceneMap.remove m sceneId

/-- A change of the object behind `m_scenes.get(sceneId)->integrationScene`. -/
def SceneMap.updateIntegrationScene (f : IntegrationScene → IntegrationScene) :
    SceneMap → sceneId_t → SceneMap
  | [], _ => []
  | (k, v) :: m, sceneId =>
    if k = sceneId then
      (k, { v with integrationScene := v.integrationScene.map f })
        :: SceneMap.updateIntegrationScene f m sceneId
    else (k, v) :: SceneMap.updateIntegrationScene f m sceneId

/-- The members of `TestScenes`. -/
structure TestScenes where
  m_client : RamsesClient
  m_nextSceneId : sceneId_t := 1
  m_scenes : SceneMap := []

/-- A freshly constructed registry: the member initialisers of the class. -/
def TestScenes.fresh (client : RamsesClient) : TestScenes :=
  { m_client := client }

/-- A failed `assert`. -/
inductive Violation where
  | assertionFailed
  deriving DecidableEq, Repr

/-- The method `createScene<INTEGRATION_SCENE>(state, sceneId, cameraPosition, sceneConfig)`.
The source neither looks `sceneId` up in `m_scenes` nor tests the pointer returned by the client
before it is dereferenced for the constructor.  For a client that delivers a scene this is the
registry the call returns.  For a null pointer the dereference in the source has undefined
behaviour; `TestScenes.createSceneOutcome` makes that case explicit, and the value given here for
it only describes an execution that gets past the dereference. -/
def TestScenes.createScene (ts : TestScenes) (variant : Nat) (state : Nat) (sceneId : sceneId_t)
    (cameraPosition : Vector3) (sceneConfig : SceneConfig) : TestScenes :=
  let r := ts.m_client.createScene sceneId sceneConfig
  let data : SceneData :=
    { clientScene := r.1
      integrationScene := some (IntegrationScene.construct variant r.1 state cameraPosition) }
  { m_client := r.2, m_nextSceneId := ts.m_nextSceneId, m_scenes := ts.m_scenes.put sceneId data }

/-- What a call of `createScene` with an explicit identity leads to: it returns with a registry,
or it dereferences a null pointer. -/
inductive CreateSceneOutcome where
  | returned (ts : TestScenes)
  | nullDereference

/-- The method `createScene` with the dereference `*data.clientScene` of its second statement made
explicit.  When the client returns a null pointer, the source applies `*` to it without a test:
the behaviour is undefined, no violation is reported and nothing is known about the registry.
Otherwise the call returns the registry given by `TestScenes.createScene`. -/
def TestScenes.createSceneOutcome (ts : TestScenes) (variant : Nat) (state : Nat)
    (sceneId : sceneId_t) (cameraPosition : Vector3) (sceneConfig : SceneConfig) :
    CreateSceneOutcome :=
  match (ts.m_client.createScene sceneId sceneConfig).1 with
  | none => CreateSceneOutcome.nullDereference
  | some _ =>
    CreateSceneOutcome.returned (ts.createScene variant state sceneId cameraPosition sceneConfig)

/-- The method `createScene<INTEGRATION_SCENE>(state, cameraPosition, sceneConfig)`, which takes
the identity from `m_nextSceneId++`. -/
def TestScenes.createSceneNextId (ts : TestScenes) (variant : Nat) (state : Nat)
    (cameraPosition : Vector3) (sceneConfig : SceneConfig) : sceneId_t × TestScenes :=
  let sceneId := ts.m_nextSceneId
  let ts1 : TestScenes := { ts with m_nextSceneId := ts.m_nextSceneId + 1 }
  (sceneId, ts1.createScene variant state sceneId cameraPosition sceneConfig)

/-- The method `setSceneState<INTEGRATION_SCENE>(sceneId, state)`.  The `static_cast` is
unchecked, so `variant` does not influence the result. -/
def TestScenes.setSceneState (ts : TestScenes) (_variant : Nat) (sceneId : sceneId_t)
    (state : Nat) : Except Violation TestScenes :=
  if ts.m_scenes.contains sceneId = false then Except.error Violation.assertionFailed
  else
    match ts.m_scenes.get sceneId with
    | none => Except.error Violation.assertionFailed
    | some data =>
      if data.integrationScene = none then Except.error Violation.assertionFailed
      else
        Except.ok
          { ts with
            m_scenes :=
              SceneMap.updateIntegrationScene (fun scene => scene.setState state) ts.m_scenes
                sceneId }

/-- One call of `createScene`, in either overload, with its arguments. -/
inductive CreateCall where
  | withId (variant state : Nat) (sceneId : sceneId_t) (cameraPosition : Vector3)
      (sceneConfig : SceneConfig)
  | nextId (variant state : Nat) (cameraPosition : Vector3) (sceneConfig : SceneConfig)
  deriving DecidableEq, Repr

/-- The registry after one `createScene` call. -/
def TestScenes.applyCall (ts : TestScenes) : CreateCall → TestScenes
  | CreateCall.withId variant state sceneId cameraPosition sceneConfig =>
    ts.createScene variant state sceneId cameraPosition sceneConfig
  | CreateCall.nextId variant state cameraPosition sceneConfig =>
    (ts.createSceneNextId variant state cameraPosition sceneConfig).2

/-- The registry after a sequence of `createScene` calls, first call first. -/
def TestScenes.applyCalls (ts : TestScenes) : List CreateCall → TestScenes
  | [] => ts
  | c :: cs => TestScenes.applyCalls (ts.applyCall c) cs

/-- The identities that a sequence of `createScene` calls supplies explicitly. -/
def CreateCall.suppliedIds : List CreateCall → List sceneId_t
  | [] => []
  | CreateCall.withId _ _ sceneId _ _ :: cs => sceneId :: CreateCall.suppliedIds cs
  | CreateCall.nextId _ _ _ _ :: cs => CreateCall.suppliedIds cs

/-- The identities returned by consecutive auto-assigning `createScene` calls, one call per
argument tuple `(variant, state, cameraPosition, sceneConfig)`, and the registry afterwards. -/
def TestScenes.createScenesNextId (ts : TestScenes) :
    List (Nat × Nat × Vector3 × SceneConfig) → List sceneId_t × TestScenes
  | [] => ([], ts)
  | a :: as =>
    let r := ts.createSceneNextId a.1 a.2.1 a.2.2.1 a.2.2.2
    let rest := TestScenes.createScenesNextId r.2 as
    (r.1 :: rest.1, rest.2)

/-- Modelled from the spec: `TestScenes::getScene`, whose body is in `TestScenes.cpp`, not part of
the sources: "returns the client scene for a registered identity; fails (precondition violation)
if the identity is not registered".  The result is the stored scene pointer, to whose target the
returned reference is bound. -/
def TestScenes.getScene (ts : TestScenes) (sceneId : sceneId_t) :
    Except Violation (Option Scene) :=
  match ts.m_scenes.get sceneId with
  | none => Except.error Violation.assertionFailed
  | some data => Except.ok data.clientScene

/-- Modelled from the spec: `TestScenes::destroyScene`, whose body is in `TestScenes.cpp`, not
part of the sources: "releases the test-logic object, requests the scene-producing collaborator to
release the client scene, and removes the identity's entry"; on a missing identity it is "a
harmless no-op, not a violation".  The function has no failure result. -/
def TestScenes.destroyScene (ts : TestScenes) (sceneId : sceneId_t) : TestScenes :=
  match ts.m_scenes.get sceneId with
  | none => ts
  | some data =>
    { m_client :=
        match data.clientScene with
        | none => ts.m_client
        | some scene => ts.m_client.destroy scene
      m_nextSceneId := ts.m_nextSceneId
      m_scenes := ts.m_scenes.remove sceneId }

/-- One call on the registry that creates a pair or changes the state of its test logic. -/
inductive RegistryCall where
  | create (call : CreateCall)
  | setState (variant : Nat) (sceneId : sceneId_t) (state : Nat)
  deriving DecidableEq, Repr

/-- The registry after one call; a violated precondition ends the run. -/
def TestScenes.perform (ts : TestScenes) : RegistryCall → Except Violation TestScenes
  | RegistryCall.create call => Except.ok (ts.applyCall call)
  | RegistryCall.setState variant sceneId state => ts.setSceneState variant sceneId state

/-- The registry after a sequence of calls, first call first. -/
def TestScenes.performAll (ts : TestScenes) : List RegistryCall → Except Violation TestScenes
  | [] => Except.ok ts
  | c :: cs =>
    match ts.perform c with
    | Except.ok ts1 => TestScenes.performAll ts1 cs
    | Except.error e => Except.error e

/-- A client that answers every request with a scene named like the requested identity. -/
def echoClient : RamsesClient :=
  { respond := fun _ sceneId _ => some sceneId, requests := [] }

/-- A client that never delivers a scene. -/
def failingClient : RamsesClient :=
  { respond := fun _ _ _ => none, requests := [] }

/-! ### Concrete devices -/

namespace ramses_internal
open ramses_capu

/-- A file whose size query and read primitive always give the same answers. -/
def constFile (size : status_t × Nat) (reply : ReadReply) : File Unit :=
  { getSizeInBytes := size, read := fun _ _ => (reply, ()) }

/-- A file whose first read gives `first` and whose later reads all give `later`.  The device
state counts the reads issued. -/
def twoPhaseFile (size : status_t × Nat) (first later : ReadReply) : File Nat :=
  { getSizeInBytes := size
    read := fun c _ => (if c = 0 then first else later, c + 1) }

/-- A chunk chooser without state that delivers at most `k` bytes per read. -/
def atMost (k : Nat) : Unit → Nat → Nat × Unit :=
  fun _ length => (min k length, ())

end ramses_internal

/-! ## Properties of `ReadAllBytes` -/

namespace ramses_internal
open ramses_capu

theorem resize_length (v : List Byte) (n : Nat) : (resize v n).length = n := by
  simp [resize]
  omega

theorem storeAt_length (buf : List Byte) (off : Nat) (data : List Byte) :
    (storeAt buf off data).length = buf.length := by
  simp [storeAt]
  omega

theorem readCount_append_read (calls : List FileCall) (off len : Nat) :
    readCount (calls ++ [FileCall.read off len]) = readCount calls + 1 := by
  simp [readCount, List.filter_append]

/-- The loop never changes the length of the vector. -/
theorem readLoop_result_length {σ : Type} (w : Nat) (file : File σ) (n : Nat) :
    ∀ (fuel : Nat) (st st' : LoopState σ),
      readLoop w file n fuel st = some st' → st'.result.length = st.result.length := by
  intro fuel
  induction fuel with
  | zero =>
    intro st st' h
    simp only [readLoop] at h
    split_ifs at h
    cases h
    rfl
  | succ fuel ih =>
    intro st st' h
    simp only [readLoop] at h
    split_ifs at h
    · cases h; simp [storeAt_length]
    · cases h; simp [storeAt_length]
    · cases h; simp [storeAt_length]
    · rw [ih _ _ h]; simp [storeAt_length]
    · cases h; rfl

/-- More fuel does not change a result the loop has already produced. -/
theorem readLoop_fuel_mono {σ : Type} (w : Nat) (file : File σ) (n : Nat) :
    ∀ (fuel : Nat) (st st' : LoopState σ),
      readLoop w file n fuel st = some st' → ∀ k, readLoop w file n (fuel + k) st = some st' := by
  intro fuel
  induction fuel with
  | zero =>
    intro st st' h k
    simp only [readLoop] at h
    split_ifs at h with h1
    cases h
    cases k with
    | zero => simp [readLoop, h1]
    | succ k => simp [readLoop, h1]
  | succ fuel ih =>
    intro st st' h k
    have hk : fuel + 1 + k = (fuel + k) + 1 := by omega
    rw [hk]
    simp only [readLoop] at h ⊢
    split_ifs at h ⊢
    · exact h
    · exact h
    · exact h
    · exact ih _ _ h k
    · exact h

/-- With a read primitive that never reports more bytes than requested, the loop started with at
least `n - totalBytesRead` units of fuel returns, and it issues at most that many reads. -/
theorem readLoop_terminates {σ : Type} (w : Nat) (file : File σ) (n : Nat) (hw : n < 2 ^ w)
    (hle : ∀ d length, (file.read d length).1.numBytes ≤ length) :
    ∀ (fuel : Nat) (st : LoopState σ), n - st.totalBytesRead ≤ fuel →
      ∃ st', readLoop w file n fuel st = some st' ∧
        readCount st'.calls ≤ readCount st.calls + (n - st.totalBytesRead) := by
  intro fuel
  induction fuel with
  | zero =>
    intro st hf
    have h1 : ¬ st.totalBytesRead < n := by omega
    exact ⟨st, by simp [readLoop, h1], by omega⟩
  | succ fuel ih =>
    intro st hf
    simp only [readLoop]
    split_ifs with h1 h2 h3 h4
    · exact ⟨_, rfl, by simp only [readCount_append_read]; omega⟩
    · exact ⟨_, rfl, by simp only [readCount_append_read]; omega⟩
    · exact ⟨_, rfl, by simp only [readCount_append_read]; omega⟩
    · have hb := hle st.dev (n - st.totalBytesRead)
      have hmod : (st.totalBytesRead + (file.read st.dev (n - st.totalBytesRead)).1.numBytes) % 2 ^ w
          = st.totalBytesRead + (file.read st.dev (n - st.totalBytesRead)).1.numBytes :=
        Nat.mod_eq_of_lt (by omega)
      obtain ⟨st', hrun, hcount⟩ := ih
        { result := storeAt st.result st.vectorPtr (file.read st.dev (n - st.totalBytesRead)).1.data
          totalBytesRead :=
            (st.totalBytesRead + (file.read st.dev (n - st.totalBytesRead)).1.numBytes) % 2 ^ w
          vectorPtr :=
            (st.vectorPtr + (file.read st.dev (n - st.totalBytesRead)).1.numBytes) % 2 ^ w
          retVal := (file.read st.dev (n - st.totalBytesRead)).1.status
          dev := (file.read st.dev (n - st.totalBytesRead)).2
          calls := st.calls ++ [FileCall.read st.vectorPtr (n - st.totalBytesRead)] }
        (by simp only [hmod]; omega)
      refine ⟨st', hrun, ?_⟩
      simp only [readCount_append_read, hmod] at hcount
      omega
    · exact ⟨st, rfl, by omega⟩

/-- Claim C7. Termination of the read loop.  Let the size query report `n` (a `uint_t`, so
`n < 2 ^ w`) and let the read primitive never report more bytes than were requested.  Then
`ReadAllBytes` returns: one outcome is produced for every fuel of at least `n`, and its call log
holds at most `n` reads.  Moreover, from every loop state in which bytes are still missing, a read
that reports OK with zero bytes makes the loop return right after that read, which is the last
call in the log. -/
theorem C7_read_loop_terminates {σ : Type} (w n : Nat) (file : File σ) (dev : σ)
    (result : List Byte) (hsize : file.getSizeInBytes = (status_t.CAPU_OK, n)) (hw : n < 2 ^ w)
    (hle : ∀ d length, (file.read d length).1.numBytes ≤ length) :
    (∃ out, (∀ fuel, n ≤ fuel → ReadAllBytes w fuel file dev result = some out) ∧
        readCount out.calls ≤ n) ∧
      ∀ (fuel : Nat) (st : LoopState σ), st.totalBytesRead < n →
        (file.read st.dev (n - st.totalBytesRead)).1.status = status_t.CAPU_OK →
        (file.read st.dev (n - st.totalBytesRead)).1.numBytes = 0 →
        ∃ st', readLoop w file n (fuel + 1) st = some st' ∧
          st'.calls = st.calls ++ [FileCall.read st.vectorPtr (n - st.totalBytesRead)] ∧
          st'.totalBytesRead = st.totalBytesRead := by
  constructor
  · obtain ⟨st', hrun, hcount⟩ := readLoop_terminates w file n hw hle n
      { result := resize result n, totalBytesRead := 0, vectorPtr := 0,
        retVal := status_t.CAPU_ERROR, dev := dev, calls := [FileCall.open] } (by simp)
    refine ⟨{ status := st'.retVal, result := st'.result, calls := st'.calls ++ [FileCall.close],
              totalBytesRead := st'.totalBytesRead, dev := st'.dev }, ?_, ?_⟩
    · intro fuel hfuel
      obtain ⟨k, rfl⟩ := Nat.exists_eq_add_of_le hfuel
      have hmono := readLoop_fuel_mono w file n n _ _ hrun k
      simp [ReadAllBytes, hsize, hmono]
    · have h0 : readCount [FileCall.open] = 0 := by simp [readCount]
      have h1 : readCount (st'.calls ++ [FileCall.close]) = readCount st'.calls := by
        simp [readCount, List.filter_append]
      simp only [h1]
      simp only [h0] at hcount
      omega
  · intro fuel st hlt hok hzero
    refine ⟨{ result := storeAt st.result st.vectorPtr
                  (file.read st.dev (n - st.totalBytesRead)).1.data
              totalBytesRead := st.totalBytesRead
              vectorPtr := st.vectorPtr
              retVal := (file.read st.dev (n - st.totalBytesRead)).1.status
              dev := (file.read st.dev (n - st.totalBytesRead)).2
              calls := st.calls ++ [FileCall.read st.vectorPtr (n - st.totalBytesRead)] },
      ?_, rfl, rfl⟩
    simp [readLoop, hlt, hok, hzero]

/-- Witness of claim C7: a three-byte file delivered in chunks of at most two bytes. -/
theorem C7_read_loop_terminates_witness :
    ∃ out, ReadAllBytes 64 3 (chunkedFile [1, 2, 3] (atMost 2)) ((), 0) [] = some out ∧
      readCount out.calls ≤ 3 := by
  obtain ⟨out, hrun, hcount⟩ :=
    (C7_read_loop_terminates 64 3 (chunkedFile [1, 2, 3] (atMost 2)) ((), 0) [] rfl (by decide)
      (by intro d length; simp [chunkedFile, atMost])).1
  exact ⟨out, hrun 3 (le_refl 3), hcount⟩

theorem readLoop_done {σ : Type} (w : Nat) (file : File σ) (n fuel : Nat) (st : LoopState σ)
    (h : ¬ st.totalBytesRead < n) : readLoop w file n fuel st = some st := by
  cases fuel <;> simp [readLoop, h]

theorem storeAt_take (buf data : List Byte) (off : Nat) (h : off + data.length ≤ buf.length) :
    (storeAt buf off data).take (off + data.length) = buf.take off ++ data := by
  have h1 : data.take (buf.length - off) = data := List.take_of_length_le (by omega)
  have h2 : (buf.take off ++ data).length = off + data.length := by
    simp
    omega
  rw [storeAt, h1, ← h2, List.take_left]

theorem eq_of_take_length (a b : List Byte) (h : a.length = b.length)
    (ht : a.take b.length = b.take b.length) : a = b := by
  rw [List.take_length] at ht
  rw [← h, List.take_length] at ht
  exact ht

/-- The loop on a chunked file: from a state whose vector already agrees with the content on
the bytes read so far, the loop returns with the whole content and status OK. -/
theorem readLoop_chunked {τ : Type} (w : Nat) (F : List Byte) (pick : τ → Nat → Nat × τ)
    (hw : F.length < 2 ^ w)
    (hpick : ∀ t length, 1 ≤ length → 1 ≤ (pick t length).1 ∧ (pick t length).1 ≤ length) :
    ∀ (fuel : Nat) (st : LoopState (τ × Nat)),
      st.totalBytesRead ≤ F.length → st.vectorPtr = st.totalBytesRead →
      st.dev.2 = st.totalBytesRead → st.result.length = F.length →
      st.result.take st.totalBytesRead = F.take st.totalBytesRead →
      (st.totalBytesRead < F.length ∨ st.retVal = status_t.CAPU_OK) →
      F.length - st.totalBytesRead ≤ fuel →
      ∃ st', readLoop w (chunkedFile F pick) F.length fuel st = some st' ∧ st'.result = F ∧
        st'.retVal = status_t.CAPU_OK ∧ st'.totalBytesRead = F.length := by
  intro fuel
  induction fuel with
  | zero =>
    intro st hle _ _ hlen htake hor hfuel
    have htot : st.totalBytesRead = F.length := by omega
    refine ⟨st, readLoop_done _ _ _ _ _ (by omega), ?_, ?_, htot⟩
    · rw [htot] at htake
      exact eq_of_take_length _ _ hlen htake
    · rcases hor with h | h
      · omega
      · exact h
  | succ fuel ih =>
    intro st hle hptr hdev hlen htake hor hfuel
    by_cases h1 : st.totalBytesRead < F.length
    · obtain ⟨hk1, hk2⟩ := hpick st.dev.1 (F.length - st.totalBytesRead) (by omega)
      have hmod : (st.totalBytesRead + (pick st.dev.1 (F.length - st.totalBytesRead)).1) % 2 ^ w
          = st.totalBytesRead + (pick st.dev.1 (F.length - st.totalBytesRead)).1 :=
        Nat.mod_eq_of_lt (by omega)
      have hdata : ((F.drop st.totalBytesRead).take
          (pick st.dev.1 (F.length - st.totalBytesRead)).1).length
          = (pick st.dev.1 (F.length - st.totalBytesRead)).1 := by
        simp
        omega
      have hk0 : (pick st.dev.1 (F.length - st.totalBytesRead)).1 ≠ 0 := by omega
      simp only [readLoop, if_pos h1, chunkedFile, hdev, hptr]
      simp only [reduceCtorEq, if_false, ne_eq, not_true_eq_false, hk0, hmod]
      apply ih
      · simp only; omega
      · rfl
      · rfl
      · simp only [storeAt_length]; exact hlen
      · simp only
        have hst := storeAt_take st.result
          ((F.drop st.totalBytesRead).take (pick st.dev.1 (F.length - st.totalBytesRead)).1)
          st.totalBytesRead (by rw [hdata, hlen]; omega)
        rw [hdata] at hst
        rw [hst, htake, List.take_add]
      · right; rfl
      · simp only; omega
    · have htot : st.totalBytesRead = F.length := by omega
      refine ⟨st, readLoop_done _ _ _ _ _ h1, ?_, ?_, htot⟩
      · rw [htot] at htake
        exact eq_of_take_length _ _ hlen htake
      · rcases hor with h | h
        · omega
        · exact h

/-- Claim C2. Partial-read robustness.  Let `F` be a file content of length `n > 0` (a `uint_t`,
so `n < 2 ^ w`) whose read primitive reports OK on every call and delivers the next `k` bytes of
`F`, where `1 ≤ k ≤` the requested length and `k` is chosen by an arbitrary chooser `pick` with
arbitrary state.  Then `ReadAllBytes` returns, with status OK and a vector equal to `F`, whatever
the chooser, its initial state and the prior content of the vector. -/
theorem C2_partial_read_robustness {τ : Type} (w : Nat) (F : List Byte)
    (pick : τ → Nat → Nat × τ) (t0 : τ) (P : List Byte) (hpos : 0 < F.length)
    (hw : F.length < 2 ^ w)
    (hpick : ∀ t length, 1 ≤ length → 1 ≤ (pick t length).1 ∧ (pick t length).1 ≤ length) :
    ∃ out, (∀ fuel, F.length ≤ fuel →
        ReadAllBytes w fuel (chunkedFile F pick) (t0, 0) P = some out) ∧
      out.status = status_t.CAPU_OK ∧ out.result = F := by
  obtain ⟨st', hrun, hres, hret, _⟩ := readLoop_chunked w F pick hw hpick F.length
    { result := resize P F.length, totalBytesRead := 0, vectorPtr := 0,
      retVal := status_t.CAPU_ERROR, dev := (t0, 0), calls := [FileCall.open] }
    (Nat.zero_le _) rfl rfl (resize_length _ _) (by simp) (Or.inl hpos) (by simp)
  refine ⟨{ status := st'.retVal, result := st'.result, calls := st'.calls ++ [FileCall.close],
            totalBytesRead := st'.totalBytesRead, dev := st'.dev }, ?_, hret, hres⟩
  intro fuel hfuel
  obtain ⟨k, rfl⟩ := Nat.exists_eq_add_of_le hfuel
  have hmono := readLoop_fuel_mono w (chunkedFile F pick) F.length F.length _ _ hrun k
  have hsize : (chunkedFile F pick).getSizeInBytes = (status_t.CAPU_OK, F.length) := rfl
  simp [ReadAllBytes, hsize, hmono]

/-- Witness of claim C2: three bytes delivered in chunks of at most two bytes. -/
theorem C2_partial_read_robustness_witness :
    ∃ out, ReadAllBytes 64 3 (chunkedFile [1, 2, 3] (atMost 2)) ((), 0) [9, 9, 9, 9] = some out ∧
      out.status = status_t.CAPU_OK ∧ out.result = [1, 2, 3] := by
  obtain ⟨out, hrun, hst, hres⟩ :=
    C2_partial_read_robustness 64 [1, 2, 3] (atMost 2) () [9, 9, 9, 9] (by decide) (by decide)
      (by intro t length h; simp [atMost]; omega)
  exact ⟨out, hrun 3 (le_refl 3), hst, hres⟩

/-- Round trip for a non-empty buffer: after a successful `WriteAllBytes` of `B`, `ReadAllBytes`
on the same path returns OK and leaves the vector equal to `B`. -/
theorem roundTrip_nonempty (w : Nat) (fs : FileSystem) (path : String) (B P : List Byte)
    (hne : B ≠ []) (hw : B.length < 2 ^ w)
    (hok : (WriteAllBytes fs path B B.length).1 = status_t.CAPU_OK) (fuel : Nat) :
    ReadAllBytes w (fuel + 1) (diskFile (WriteAllBytes fs path B B.length).2 path) 0 P
      = some { status := status_t.CAPU_OK, result := B,
               calls := [FileCall.open, FileCall.read 0 B.length, FileCall.close],
               totalBytesRead := B.length, dev := B.length } := by
  have hwr : fs.writable path = true := by
    by_contra hc
    simp [WriteAllBytes, capuWriteAllBytes, hc] at hok
  have hlen : 0 < B.length := List.length_pos.mpr hne
  have hlen0 : B.length ≠ 0 := by omega
  have hnlt : ¬ B.length % 2 ^ w < B.length := by rw [Nat.mod_eq_of_lt hw]; omega
  have hstore : storeAt (resize P B.length) 0 B = B := by
    simp [storeAt, resize_length]
  simp [ReadAllBytes, WriteAllBytes, capuWriteAllBytes, hwr, diskFile, readLoop, hlen, hlen0,
    readLoop_done, hnlt, hstore, Nat.mod_eq_of_lt hw]

/-- Claim C1. Evaluation at the empty buffer: `WriteAllBytes` of the empty buffer succeeds, and
`ReadAllBytes` on the same path then issues no read and returns the Error status, the initial
value of `retVal`; the round trip does not yield OK. -/
theorem C1_round_trip_empty_buffer :
    (WriteAllBytes emptyFileSystem "a" [] 0).1 = status_t.CAPU_OK ∧
      ∀ fuel, ReadAllBytes 64 fuel (diskFile (WriteAllBytes emptyFileSystem "a" [] 0).2 "a") 0 []
        = some { status := status_t.CAPU_ERROR, result := [],
                 calls := [FileCall.open, FileCall.close], totalBytesRead := 0, dev := 0 } := by
  refine ⟨by decide, ?_⟩
  intro fuel
  cases fuel <;> rfl

/-- Claim C8, as stated, fails: with a failing size query a vector that held `[7]` before the call
still holds `[7]` on return; it is not empty. -/
theorem C8_failed_size_query_counterexample :
    ReadAllBytes 64 0
        (constFile (status_t.CAPU_ERROR, 0) { status := status_t.CAPU_ERROR, numBytes := 0, data := [] })
        () [7]
      = some { status := status_t.CAPU_ERROR, result := [7], calls := [], totalBytesRead := 0,
               dev := () } ∧
      ([7] : List Byte) ≠ [] := by
  decide

/-- Claim C8, amended.  Whenever the size query does not report OK, `ReadAllBytes` returns the Error
status and leaves the vector exactly as the caller passed it (so it is empty on return only if it
was empty before); the call log is empty, that is, the file is neither opened nor read. -/
theorem C8_failed_size_query_keeps_vector {σ : Type} (w fuel : Nat) (file : File σ) (dev : σ)
    (result : List Byte) (hfail : file.getSizeInBytes.1 ≠ status_t.CAPU_OK) :
    ReadAllBytes w fuel file dev result
      = some { status := status_t.CAPU_ERROR, result := result, calls := [],
               totalBytesRead := 0, dev := dev } := by
  simp [ReadAllBytes, hfail]

/-- Witness of claim C8, amended: an empty vector stays empty. -/
theorem C8_failed_size_query_keeps_vector_witness :
    ReadAllBytes 64 0
        (constFile (status_t.CAPU_EINVAL, 0) { status := status_t.CAPU_ERROR, numBytes := 0, data := [] })
        () []
      = some { status := status_t.CAPU_ERROR, result := [], calls := [], totalBytesRead := 0,
               dev := () } :=
  C8_failed_size_query_keeps_vector 64 0
    (constFile (status_t.CAPU_EINVAL, 0) { status := status_t.CAPU_ERROR, numBytes := 0, data := [] })
    () [] (by decide)

/-- Claim C9. Evaluation at a vector that holds `[1]` before the call and a file of content
`[2, 3]` that is read completely: the vector is `[2, 3]` afterwards, not `[1, 2, 3]`; the prior
content is overwritten, not kept. -/
theorem C9_prior_content_overwritten :
    ReadAllBytes 64 1 (diskFile (WriteAllBytes emptyFileSystem "a" [2, 3] 2).2 "a") 0 [1]
      = some { status := status_t.CAPU_OK, result := [2, 3],
               calls := [FileCall.open, FileCall.read 0 2, FileCall.close],
               totalBytesRead := 2, dev := 2 } ∧
      ([2, 3] : List Byte) ≠ [1] ++ [2, 3] := by
  decide

/-- Claim C10, as stated, fails: the size query reports five bytes, the first read delivers two
bytes and the second read reports OK with zero bytes.  The loop exits early after `k = 2` bytes,
and the vector returned has length five, not two. -/
theorem C10_vector_not_truncated_counterexample :
    ReadAllBytes 64 2
        (twoPhaseFile (status_t.CAPU_OK, 5)
          { status := status_t.CAPU_OK, numBytes := 2, data := [1, 2] }
          { status := status_t.CAPU_OK, numBytes := 0, data := [] })
        0 []
      = some { status := status_t.CAPU_OK, result := [1, 2, 0, 0, 0],
               calls := [FileCall.open, FileCall.read 0 5, FileCall.read 2 3, FileCall.close],
               totalBytesRead := 2, dev := 2 } ∧
      ([1, 2, 0, 0, 0] : List Byte).length ≠ 2 := by
  decide

/-- Claim C10, amended.  In every run of `ReadAllBytes` whose size query reports OK, whether the
loop exits early or not and whatever number of bytes was transferred, the vector returned to the
caller has the queried file size as its length: it is sized once before the loop and never
truncated. -/
theorem C10_vector_keeps_queried_size {σ : Type} (w fuel : Nat) (file : File σ) (dev : σ)
    (P : List Byte) (out : ReadAllBytesOutcome σ)
    (hsize : file.getSizeInBytes.1 = status_t.CAPU_OK)
    (hrun : ReadAllBytes w fuel file dev P = some out) :
    out.result.length = file.getSizeInBytes.2 := by
  simp only [ReadAllBytes, hsize, ne_eq, not_true_eq_false, if_false] at hrun
  split at hrun
  · cases hrun
  · rename_i st hloop
    cases hrun
    have h := readLoop_result_length w file _ fuel _ st hloop
    simp only [resize_length] at h
    exact h

/-- Witness of claim C10, amended: a run that exits early on EOF; the size query reports four
bytes, the only read delivers one byte and reports EOF. -/
theorem C10_vector_keeps_queried_size_witness :
    ∃ out, ReadAllBytes 64 1
        (constFile (status_t.CAPU_OK, 4) { status := status_t.CAPU_EOF, numBytes := 1, data := [8] })
        () [] = some out ∧
      out.status = status_t.CAPU_EOF ∧ out.result.length = 4 :=
  ⟨{ status := status_t.CAPU_EOF, result := [8, 0, 0, 0],
     calls := [FileCall.open, FileCall.read 0 4, FileCall.close], totalBytesRead := 0, dev := () },
    by decide, rfl,
    C10_vector_keeps_queried_size 64 1
      (constFile (status_t.CAPU_OK, 4) { status := status_t.CAPU_EOF, numBytes := 1, data := [8] })
      () [] _ rfl (by decide)⟩

/-! ### The reads of a run -/

theorem ReadAllBytes_of_size_ok {σ : Type} (w fuel : Nat) (file : File σ) (dev : σ)
    (P : List Byte) (h : file.getSizeInBytes.1 = status_t.CAPU_OK) :
    ReadAllBytes w fuel file dev P
      = (readLoop w file file.getSizeInBytes.2 fuel (loopStart dev P file.getSizeInBytes.2)).map
          fun st =>
            { status := st.retVal, result := st.result, calls := st.calls ++ [FileCall.close],
              totalBytesRead := st.totalBytesRead, dev := st.dev } := by
  simp only [ReadAllBytes, h, ne_eq, not_true_eq_false, if_false, loopStart]
  split <;> simp [*]

/-- The call log of the loop grows by exactly the reads listed by `readEvents`. -/
theorem readLoop_calls_events {σ : Type} (w : Nat) (file : File σ) (n : Nat) :
    ∀ (fuel : Nat) (st st' : LoopState σ), readLoop w file n fuel st = some st' →
      st'.calls = st.calls ++ (readEvents w file n fuel st).map ReadEvent.toCall := by
  intro fuel
  induction fuel with
  | zero =>
    intro st st' h
    simp only [readLoop] at h
    split_ifs at h
    cases h
    simp [readEvents]
  | succ fuel ih =>
    intro st st' h
    simp only [readLoop] at h
    simp only [readEvents]
    split_ifs at h ⊢
    · cases h; simp [ReadEvent.toCall]
    · cases h; simp [ReadEvent.toCall]
    · cases h; simp [ReadEvent.toCall]
    · rw [ih _ _ h]; simp [ReadEvent.toCall]
    · cases h; simp

theorem getLast?_cons_getD {α β : Type} (f : α → β) (x : α) (rest : List α) (d : β) :
    (((x :: rest).getLast?).map f).getD d = ((rest.getLast?).map f).getD (f x) := by
  cases rest with
  | nil => simp
  | cons y ys =>
    rw [List.getLast?_cons_cons]
    cases hlast : (y :: ys).getLast? with
    | none => simp at hlast
    | some z => simp

/-- The value of `retVal` after the loop is the status of the last read issued, and the value
before the loop when no read was issued. -/
theorem readLoop_retVal_events {σ : Type} (w : Nat) (file : File σ) (n : Nat) :
    ∀ (fuel : Nat) (st st' : LoopState σ), readLoop w file n fuel st = some st' →
      st'.retVal
        = (((readEvents w file n fuel st).getLast?).map fun e => e.reply.status).getD
            st.retVal := by
  intro fuel
  induction fuel with
  | zero =>
    intro st st' h
    simp only [readLoop] at h
    split_ifs at h
    cases h
    simp [readEvents]
  | succ fuel ih =>
    intro st st' h
    simp only [readLoop] at h
    simp only [readEvents]
    split_ifs at h ⊢
    · cases h; simp
    · cases h; simp
    · cases h; simp
    · rw [ih _ _ h, getLast?_cons_getD]
    · cases h; simp

theorem mem_dropLast_cons {α : Type} (e x : α) (rest : List α)
    (h : e ∈ (x :: rest).dropLast) : e = x ∨ e ∈ rest.dropLast := by
  cases rest with
  | nil => simp at h
  | cons y ys => simpa using h

/-- Every read before the last one of a run was answered with OK and a positive byte count. -/
theorem readEvents_dropLast {σ : Type} (w : Nat) (file : File σ) (n : Nat) :
    ∀ (fuel : Nat) (st : LoopState σ),
      ∀ e ∈ (readEvents w file n fuel st).dropLast, e.stops = false := by
  intro fuel
  induction fuel with
  | zero => intro st e he; simp [readEvents] at he
  | succ fuel ih =>
    intro st e he
    simp only [readEvents] at he
    split_ifs at he with h1 h2 h3 h4
    · simp at he
    · simp at he
    · simp at he
    · rcases mem_dropLast_cons _ _ _ he with h | h
      · subst h
        have h3' : (file.read st.dev (n - st.totalBytesRead)).1.status = status_t.CAPU_OK := by
          simpa using h3
        simp [ReadEvent.stops, h3', h4]
      · exact ih _ e h
    · simp at he

/-- When the loop returns, the last read issued made it exit or the counter has reached the
size. -/
theorem readLoop_exit {σ : Type} (w : Nat) (file : File σ) (n : Nat) :
    ∀ (fuel : Nat) (st st' : LoopState σ), readLoop w file n fuel st = some st' →
      (∃ e, (readEvents w file n fuel st).getLast? = some e ∧ e.stops = true) ∨
        n ≤ st'.totalBytesRead := by
  intro fuel
  induction fuel with
  | zero =>
    intro st st' h
    simp only [readLoop] at h
    split_ifs at h with h1
    cases h
    exact Or.inr (by omega)
  | succ fuel ih =>
    intro st st' h
    simp only [readLoop] at h
    simp only [readEvents]
    split_ifs at h ⊢ with h1 h2 h3 h4
    · exact Or.inl ⟨_, rfl, by simp [ReadEvent.stops, h2]⟩
    · exact Or.inl ⟨_, rfl, by simp [ReadEvent.stops, h3]⟩
    · exact Or.inl ⟨_, rfl, by simp [ReadEvent.stops, h4]⟩
    · rcases ih _ _ h with ⟨e, he, hs⟩ | hge
      · left
        refine ⟨e, ?_, hs⟩
        cases hrest : readEvents w file n fuel _ with
        | nil => rw [hrest] at he; simp at he
        | cons y ys => rw [hrest] at he; rw [List.getLast?_cons_cons]; exact he
      · exact Or.inr hge
    · cases h
      exact Or.inr (by omega)

/-- Claim C11, as stated, fails: the size query reports four bytes, the first read delivers three
bytes, the second read reports EOF.  The status returned to the caller is the EOF marker. -/
theorem C11_eof_reaches_caller_counterexample :
    ReadAllBytes 64 2
        (twoPhaseFile (status_t.CAPU_OK, 4)
          { status := status_t.CAPU_OK, numBytes := 3, data := [1, 2, 3] }
          { status := status_t.CAPU_EOF, numBytes := 0, data := [] })
        0 []
      = some { status := status_t.CAPU_EOF, result := [1, 2, 3, 0],
               calls := [FileCall.open, FileCall.read 0 4, FileCall.read 3 1, FileCall.close],
               totalBytesRead := 3, dev := 2 } := by
  decide

/-- Claim C11, amended.  For every behaviour of the size query and of the read primitive and
every run of `ReadAllBytes`, the status returned to the caller is the EOF marker exactly when the
size query succeeded and the last read issued by the loop reported EOF; in every other run the
status is OK or an Error variant. -/
theorem C11_eof_exactly_from_last_read {σ : Type} (w fuel : Nat) (file : File σ) (dev : σ)
    (P : List Byte) (out : ReadAllBytesOutcome σ)
    (hrun : ReadAllBytes w fuel file dev P = some out) :
    out.status = status_t.CAPU_EOF ↔
      file.getSizeInBytes.1 = status_t.CAPU_OK ∧
        ∃ e, (readEvents w file file.getSizeInBytes.2 fuel
            (loopStart dev P file.getSizeInBytes.2)).getLast? = some e ∧
          e.reply.status = status_t.CAPU_EOF := by
  by_cases hs : file.getSizeInBytes.1 = status_t.CAPU_OK
  · rw [ReadAllBytes_of_size_ok w fuel file dev P hs] at hrun
    cases hloop : readLoop w file file.getSizeInBytes.2 fuel
        (loopStart dev P file.getSizeInBytes.2) with
    | none => rw [hloop] at hrun; simp at hrun
    | some st =>
      rw [hloop] at hrun
      simp only [Option.map_some', Option.some.injEq] at hrun
      have hret := readLoop_retVal_events w file _ fuel _ st hloop
      have hstatus : out.status = st.retVal := by rw [← hrun]
      rw [hstatus, hret]
      cases hlast : (readEvents w file file.getSizeInBytes.2 fuel
          (loopStart dev P file.getSizeInBytes.2)).getLast? with
      | none => simp [loopStart, hs]
      | some e => simp [hs]
  · have hne : file.getSizeInBytes.1 ≠ status_t.CAPU_OK := hs
    simp only [ReadAllBytes, hne, ne_eq, not_false_eq_true, if_true, Option.some.injEq] at hrun
    have hstatus : out.status = status_t.CAPU_ERROR := by rw [← hrun]
    simp [hstatus, hs]

/-- Witness of claim C11, amended: a two-byte file whose only read reports EOF. -/
theorem C11_eof_exactly_from_last_read_witness :
    ∃ out, ReadAllBytes 64 1
        (constFile (status_t.CAPU_OK, 2) { status := status_t.CAPU_EOF, numBytes := 0, data := [] })
        () [] = some out ∧
      out.status = status_t.CAPU_EOF ∧
      ∃ e, (readEvents 64
          (constFile (status_t.CAPU_OK, 2)
            { status := status_t.CAPU_EOF, numBytes := 0, data := [] })
          2 1 (loopStart () [] 2)).getLast? = some e ∧ e.reply.status = status_t.CAPU_EOF :=
  ⟨{ status := status_t.CAPU_EOF, result := [0, 0],
     calls := [FileCall.open, FileCall.read 0 2, FileCall.close], totalBytesRead := 0, dev := () },
    by decide, rfl,
    ((C11_eof_exactly_from_last_read 64 1
      (constFile (status_t.CAPU_OK, 2) { status := status_t.CAPU_EOF, numBytes := 0, data := [] })
      () []
      { status := status_t.CAPU_EOF, result := [0, 0],
        calls := [FileCall.open, FileCall.read 0 2, FileCall.close], totalBytesRead := 0,
        dev := () }
      (by decide)).mp rfl).2⟩

/-- Claim C14. The three exit conditions of the read loop.  Take a run of `ReadAllBytes` whose
size query reports OK with size `n`, and let `events` be the reads the loop issues, in order.  The
call log of the run is `open`, these reads, `close`.  Every read before the last one was answered
with OK and a positive byte count, so a read that reports EOF, a status other than OK, or OK with
zero bytes is the last read: the loop stops there and issues no further read.  The status returned
to the caller is the status of the last read issued.  The last read is such a read, unless the
counter has reached `n`. -/
theorem C14_three_exit_conditions {σ : Type} (w fuel n : Nat) (file : File σ) (dev : σ)
    (P : List Byte) (out : ReadAllBytesOutcome σ)
    (hsize : file.getSizeInBytes = (status_t.CAPU_OK, n))
    (hrun : ReadAllBytes w fuel file dev P = some out) :
    out.calls
        = FileCall.open ::
            ((readEvents w file n fuel (loopStart dev P n)).map ReadEvent.toCall
              ++ [FileCall.close]) ∧
      (∀ e ∈ (readEvents w file n fuel (loopStart dev P n)).dropLast, e.stops = false) ∧
      (∀ e, (readEvents w file n fuel (loopStart dev P n)).getLast? = some e →
        out.status = e.reply.status) ∧
      ((∃ e, (readEvents w file n fuel (loopStart dev P n)).getLast? = some e ∧
          e.stops = true) ∨ n ≤ out.totalBytesRead) := by
  have hs : file.getSizeInBytes.1 = status_t.CAPU_OK := by rw [hsize]
  have hn : file.getSizeInBytes.2 = n := by rw [hsize]
  rw [ReadAllBytes_of_size_ok w fuel file dev P hs, hn] at hrun
  cases hloop : readLoop w file n fuel (loopStart dev P n) with
  | none => rw [hloop] at hrun; simp at hrun
  | some st =>
    rw [hloop] at hrun
    simp only [Option.map_some', Option.some.injEq] at hrun
    subst hrun
    refine ⟨?_, readEvents_dropLast w file n fuel _, ?_, ?_⟩
    · simp [readLoop_calls_events w file n fuel _ st hloop, loopStart]
    · intro e he
      have hret := readLoop_retVal_events w file n fuel _ st hloop
      simp only [he, Option.map_some', Option.getD_some] at hret
      exact hret
    · exact readLoop_exit w file n fuel _ st hloop

/-- Witness of claim C14: three bytes are delivered, then a read reports an error. -/
theorem C14_three_exit_conditions_witness :
    ∃ out, ReadAllBytes 64 2
        (twoPhaseFile (status_t.CAPU_OK, 4)
          { status := status_t.CAPU_OK, numBytes := 3, data := [1, 2, 3] }
          { status := status_t.CAPU_EINVAL, numBytes := 0, data := [] })
        0 [] = some out ∧
      out.status = status_t.CAPU_EINVAL ∧
      out.calls = [FileCall.open, FileCall.read 0 4, FileCall.read 3 1, FileCall.close] ∧
      ∀ e ∈ (readEvents 64
          (twoPhaseFile (status_t.CAPU_OK, 4)
            { status := status_t.CAPU_OK, numBytes := 3, data := [1, 2, 3] }
            { status := status_t.CAPU_EINVAL, numBytes := 0, data := [] })
          4 2 (loopStart 0 [] 4)).dropLast, e.stops = false :=
  ⟨{ status := status_t.CAPU_EINVAL, result := [1, 2, 3, 0],
     calls := [FileCall.open, FileCall.read 0 4, FileCall.read 3 1, FileCall.close],
     totalBytesRead := 3, dev := 2 },
    by decide, rfl, rfl,
    (C14_three_exit_conditions 64 2 4
      (twoPhaseFile (status_t.CAPU_OK, 4)
        { status := status_t.CAPU_OK, numBytes := 3, data := [1, 2, 3] }
        { status := status_t.CAPU_EINVAL, numBytes := 0, data := [] })
      0 []
      { status := status_t.CAPU_EINVAL, result := [1, 2, 3, 0],
        calls := [FileCall.open, FileCall.read 0 4, FileCall.read 3 1, FileCall.close],
        totalBytesRead := 3, dev := 2 }
      rfl (by decide)).2.1⟩

/-- Claim C16. Empty file.  When the size query reports OK with a size of zero bytes,
`ReadAllBytes` returns for every fuel; its call log is `open`, `close` without a read, the vector
is resized to length zero whatever it held before, and the status is the Error status, the initial
value of `retVal`, not OK. -/
theorem C16_empty_file_returns_error {σ : Type} (w fuel : Nat) (file : File σ) (dev : σ)
    (P : List Byte) (hsize : file.getSizeInBytes = (status_t.CAPU_OK, 0)) :
    ReadAllBytes w fuel file dev P
        = some { status := status_t.CAPU_ERROR, result := [],
                 calls := [FileCall.open, FileCall.close], totalBytesRead := 0, dev := dev } ∧
      status_t.CAPU_ERROR ≠ status_t.CAPU_OK ∧
      readCount [FileCall.open, FileCall.close] = 0 := by
  refine ⟨?_, by decide, by decide⟩
  cases fuel <;> simp [ReadAllBytes, hsize, readLoop, resize]

/-- Witness of claim C16: an empty file and a vector that held two bytes before the call. -/
theorem C16_empty_file_returns_error_witness :
    ReadAllBytes 64 0
        (constFile (status_t.CAPU_OK, 0) { status := status_t.CAPU_OK, numBytes := 0, data := [] })
        () [4, 5]
      = some { status := status_t.CAPU_ERROR, result := [],
               calls := [FileCall.open, FileCall.close], totalBytesRead := 0, dev := () } :=
  (C16_empty_file_returns_error 64 0
    (constFile (status_t.CAPU_OK, 0) { status := status_t.CAPU_OK, numBytes := 0, data := [] })
    () [4, 5] rfl).1

/-- The pointer offset and the counter stay equal: at every read of the loop the offset is the
counter, the counter is below the size, offset plus requested length is the size, and the reply
answers a request of that length. -/
theorem readEvents_offsets {σ : Type} (w : Nat) (file : File σ) (n : Nat) :
    ∀ (fuel : Nat) (st : LoopState σ), st.vectorPtr = st.totalBytesRead →
      ∀ e ∈ readEvents w file n fuel st,
        e.offset = e.counted ∧ e.counted < n ∧ e.offset + e.length = n ∧
          ∃ d, e.reply = (file.read d e.length).1 := by
  intro fuel
  induction fuel with
  | zero => intro st _ e he; simp [readEvents] at he
  | succ fuel ih =>
    intro st hptr e he
    have hhead : ∀ e : ReadEvent,
        e = { offset := st.vectorPtr, length := n - st.totalBytesRead,
              counted := st.totalBytesRead,
              reply := (file.read st.dev (n - st.totalBytesRead)).1 } →
        st.totalBytesRead < n →
        e.offset = e.counted ∧ e.counted < n ∧ e.offset + e.length = n ∧
          ∃ d, e.reply = (file.read d e.length).1 := by
      intro e he hlt
      subst he
      refine ⟨hptr, hlt, ?_, st.dev, rfl⟩
      simp only [hptr]
      omega
    simp only [readEvents] at he
    split_ifs at he with h1 h2 h3 h4
    · exact hhead e (by simpa using he) h1
    · exact hhead e (by simpa using he) h1
    · exact hhead e (by simpa using he) h1
    · rcases List.mem_cons.mp he with h | h
      · exact hhead e h h1
      · exact ih _ (by simp only [hptr]) e h
    · simp at he

/-- With reads that never report more bytes than requested the counter never exceeds the
size. -/
theorem readLoop_counter_le {σ : Type} (w : Nat) (file : File σ) (n : Nat)
    (hle : ∀ d length, (file.read d length).1.numBytes ≤ length) :
    ∀ (fuel : Nat) (st st' : LoopState σ), st.totalBytesRead ≤ n →
      readLoop w file n fuel st = some st' → st'.totalBytesRead ≤ n := by
  intro fuel
  induction fuel with
  | zero =>
    intro st st' hst h
    simp only [readLoop] at h
    split_ifs at h
    cases h
    exact hst
  | succ fuel ih =>
    intro st st' hst h
    simp only [readLoop] at h
    split_ifs at h with h1 h2 h3 h4
    · cases h; exact hst
    · cases h; exact hst
    · cases h; exact hst
    · refine ih _ st' ?_ h
      have hb := hle st.dev (n - st.totalBytesRead)
      have hm := Nat.mod_le
        (st.totalBytesRead + (file.read st.dev (n - st.totalBytesRead)).1.numBytes) (2 ^ w)
      simp only
      omega
    · cases h; exact hst

/-- Claim C17. Reads stay inside the buffer.  Let the size query report OK with size `n` and let
`events` be the reads the loop of `ReadAllBytes` issues.  In every completed run the call log is
`open`, these reads, `close`, and the vector has length `n`.  At every read the destination offset
equals the number of bytes counted so far, and offset plus requested length equals `n`.  Hence,
for every read primitive that never reports and never stores more bytes than requested, the bytes
stored by a read end at or before position `n`, the count after a read is at most `n`, and the
final count is at most `n`. -/
theorem C17_reads_stay_inside_buffer {σ : Type} (w fuel n : Nat) (file : File σ) (dev : σ)
    (P : List Byte) (hsize : file.getSizeInBytes = (status_t.CAPU_OK, n)) :
    (∀ out, ReadAllBytes w fuel file dev P = some out →
        out.calls
            = FileCall.open ::
                ((readEvents w file n fuel (loopStart dev P n)).map ReadEvent.toCall
                  ++ [FileCall.close]) ∧
          out.result.length = n) ∧
      (∀ e ∈ readEvents w file n fuel (loopStart dev P n),
        e.offset = e.counted ∧ e.offset + e.length = n) ∧
      ((∀ d length, (file.read d length).1.numBytes ≤ length ∧
            (file.read d length).1.data.length ≤ length) →
        (∀ e ∈ readEvents w file n fuel (loopStart dev P n),
          e.offset + e.reply.data.length ≤ n ∧ e.counted + e.reply.numBytes ≤ n) ∧
        ∀ out, ReadAllBytes w fuel file dev P = some out → out.totalBytesRead ≤ n) := by
  have hs : file.getSizeInBytes.1 = status_t.CAPU_OK := by rw [hsize]
  have hn : file.getSizeInBytes.2 = n := by rw [hsize]
  have hoff := readEvents_offsets w file n fuel (loopStart dev P n) rfl
  refine ⟨?_, ?_, ?_⟩
  · intro out hrun
    rw [ReadAllBytes_of_size_ok w fuel file dev P hs, hn] at hrun
    cases hloop : readLoop w file n fuel (loopStart dev P n) with
    | none => rw [hloop] at hrun; simp at hrun
    | some st =>
      rw [hloop] at hrun
      simp only [Option.map_some', Option.some.injEq] at hrun
      subst hrun
      refine ⟨?_, ?_⟩
      · simp [readLoop_calls_events w file n fuel _ st hloop, loopStart]
      · rw [readLoop_result_length w file n fuel _ st hloop]
        simp [loopStart, resize_length]
  · intro e he
    exact ⟨(hoff e he).1, (hoff e he).2.2.1⟩
  · intro hle
    refine ⟨?_, ?_⟩
    · intro e he
      obtain ⟨h1, h2, h3, d, h4⟩ := hoff e he
      have hb := hle d e.length
      rw [← h4] at hb
      constructor <;> omega
    · intro out hrun
      rw [ReadAllBytes_of_size_ok w fuel file dev P hs, hn] at hrun
      cases hloop : readLoop w file n fuel (loopStart dev P n) with
      | none => rw [hloop] at hrun; simp at hrun
      | some st =>
        rw [hloop] at hrun
        simp only [Option.map_some', Option.some.injEq] at hrun
        subst hrun
        exact readLoop_counter_le w file n (fun d l => (hle d l).1) fuel _ st
          (Nat.zero_le _) hloop

/-- Witness of claim C17: a three-byte file delivered in chunks of at most two bytes. -/
theorem C17_reads_stay_inside_buffer_witness :
    ∃ out, ReadAllBytes 64 3 (chunkedFile [1, 2, 3] (atMost 2)) ((), 0) [] = some out ∧
      out.calls = [FileCall.open, FileCall.read 0 3, FileCall.read 2 1, FileCall.close] ∧
      out.totalBytesRead ≤ 3 :=
  ⟨{ status := status_t.CAPU_OK, result := [1, 2, 3],
     calls := [FileCall.open, FileCall.read 0 3, FileCall.read 2 1, FileCall.close],
     totalBytesRead := 3, dev := ((), 3) },
    by decide, rfl,
    ((C17_reads_stay_inside_buffer 64 3 3 (chunkedFile [1, 2, 3] (atMost 2)) ((), 0) []
      rfl).2.2 (by intro d length; simp [chunkedFile, atMost])).2
      { status := status_t.CAPU_OK, result := [1, 2, 3],
        calls := [FileCall.open, FileCall.read 0 3, FileCall.read 2 1, FileCall.close],
        totalBytesRead := 3, dev := ((), 3) }
      (by decide)⟩

end ramses_internal

/-! ## Properties of `TestScenes` -/

theorem SceneMap.get_remove (m : SceneMap) (k k' : sceneId_t) :
    SceneMap.get (SceneMap.remove m k) k' = if k' = k then none else SceneMap.get m k' := by
  induction m with
  | nil => simp [SceneMap.get, SceneMap.remove]
  | cons e m ih =>
    obtain ⟨a, v⟩ := e
    by_cases h : a = k
    · subst h
      by_cases h' : k' = a
      · subst h'
        simpa [SceneMap.remove] using ih
      · have h'' : ¬ a = k' := fun hc => h' hc.symm
        simp [SceneMap.remove, SceneMap.get, ih, h', h'']
    · by_cases h' : a = k'
      · have h'' : ¬ k' = k := fun hc => h (h'.trans hc)
        simp [SceneMap.remove, SceneMap.get, h, h', h'']
      · simp [SceneMap.remove, SceneMap.get, h, h', ih]

theorem SceneMap.get_put (m : SceneMap) (k k' : sceneId_t) (v : SceneData) :
    SceneMap.get (m.put k v) k' = if k' = k then some v else SceneMap.get m k' := by
  by_cases h : k' = k
  · subst h
    simp [SceneMap.put, SceneMap.get]
  · have h' : ¬ k = k' := fun hc => h hc.symm
    simp [SceneMap.put, SceneMap.get, h, h', SceneMap.get_remove]

theorem SceneMap.get_updateIntegrationScene (m : SceneMap) (k k' : sceneId_t)
    (f : IntegrationScene → IntegrationScene) :
    SceneMap.get (SceneMap.updateIntegrationScene f m k) k'
      = if k' = k then
          (SceneMap.get m k').map fun d =>
            { d with integrationScene := d.integrationScene.map f }
        else SceneMap.get m k' := by
  induction m with
  | nil => simp [SceneMap.updateIntegrationScene, SceneMap.get]
  | cons e m ih =>
    obtain ⟨a, v⟩ := e
    by_cases h : a = k
    · subst h
      by_cases h' : a = k'
      · subst h'
        simp [SceneMap.updateIntegrationScene, SceneMap.get]
      · have h'' : ¬ k' = a := fun hc => h' hc.symm
        simp [SceneMap.updateIntegrationScene, SceneMap.get, h', h'', ih]
    · by_cases h' : a = k'
      · have h'' : ¬ k' = k := fun hc => h (h'.trans hc)
        simp [SceneMap.updateIntegrationScene, SceneMap.get, h, h', h'']
      · simp [SceneMap.updateIntegrationScene, SceneMap.get, h, h', ih]

theorem SceneMap.contains_put (m : SceneMap) (k k' : sceneId_t) (v : SceneData) :
    SceneMap.contains (m.put k v) k' = true ↔ k' = k ∨ SceneMap.contains m k' = true := by
  by_cases h : k' = k <;> simp [SceneMap.contains, SceneMap.get_put, h]

theorem TestScenes.createScenesNextId_ids (args : List (Nat × Nat × Vector3 × SceneConfig)) :
    ∀ ts : TestScenes,
      (ts.createScenesNextId args).1 = List.range' ts.m_nextSceneId args.length := by
  induction args with
  | nil => intro ts; simp [TestScenes.createScenesNextId]
  | cons a as ih =>
    intro ts
    simp only [TestScenes.createScenesNextId, List.length_cons, List.range'_succ]
    rw [ih]
    simp [TestScenes.createSceneNextId, TestScenes.createScene]

/-- Claim C3. Identity monotonicity.  On a freshly constructed registry, with any client and any
arguments, `n` consecutive auto-assigning `createScene` calls return the identities
`1, 2, ..., n` in call order (`n` is the length of the argument list).  Each auto-assigning call,
in whatever registry state, stores the pair it builds under the identity it returns: the scene
pointer delivered by the client for that identity, and the test logic constructed from it. -/
theorem C3_identity_monotonicity (client : RamsesClient)
    (args : List (Nat × Nat × Vector3 × SceneConfig)) :
    ((TestScenes.fresh client).createScenesNextId args).1 = List.range' 1 args.length ∧
      ∀ (ts : TestScenes) (variant state : Nat) (cameraPosition : Vector3)
        (sceneConfig : SceneConfig),
        (ts.createSceneNextId variant state cameraPosition sceneConfig).1 = ts.m_nextSceneId ∧
        (ts.createSceneNextId variant state cameraPosition sceneConfig).2.m_nextSceneId
          = ts.m_nextSceneId + 1 ∧
        (ts.createSceneNextId variant state cameraPosition sceneConfig).2.m_scenes.get
            (ts.createSceneNextId variant state cameraPosition sceneConfig).1
          = some
              { clientScene := (ts.m_client.createScene ts.m_nextSceneId sceneConfig).1
                integrationScene :=
                  some (IntegrationScene.construct variant
                    (ts.m_client.createScene ts.m_nextSceneId sceneConfig).1 state
                    cameraPosition) } := by
  refine ⟨TestScenes.createScenesNextId_ids args (TestScenes.fresh client), ?_⟩
  intro ts variant state cameraPosition sceneConfig
  simp [TestScenes.createSceneNextId, TestScenes.createScene, SceneMap.get_put]

/-- Along a sequence of `createScene` calls the counter does not decrease, and an identity is
registered afterwards exactly when it was registered before, or was supplied explicitly by one of
the calls, or was handed out by the counter during the calls. -/
theorem TestScenes.applyCalls_registered (calls : List CreateCall) :
    ∀ (ts : TestScenes) (k : Nat),
      (ts.m_nextSceneId : Nat) ≤ (ts.applyCalls calls).m_nextSceneId ∧
      ((ts.applyCalls calls).m_scenes.contains k = true ↔
        ts.m_scenes.contains k = true ∨ k ∈ CreateCall.suppliedIds calls ∨
          ((ts.m_nextSceneId : Nat) ≤ k ∧ k < ((ts.applyCalls calls).m_nextSceneId : Nat))) := by
  induction calls with
  | nil =>
    intro ts k
    refine ⟨Nat.le_refl _, ?_⟩
    simp only [TestScenes.applyCalls, CreateCall.suppliedIds, List.not_mem_nil, false_or]
    constructor
    · intro h; exact Or.inl h
    · rintro (h | ⟨h1, h2⟩)
      · exact h
      · exact absurd (Nat.lt_of_le_of_lt h1 h2) (Nat.lt_irrefl _)
  | cons c cs ih =>
    intro ts k
    cases c with
    | withId variant state sceneId cameraPosition sceneConfig =>
      obtain ⟨hle, hiff⟩ := ih (ts.createScene variant state sceneId cameraPosition sceneConfig) k
      have hnext : (ts.createScene variant state sceneId cameraPosition sceneConfig).m_nextSceneId
          = ts.m_nextSceneId := rfl
      have hput : (ts.createScene variant state sceneId cameraPosition sceneConfig).m_scenes.contains
          k = true ↔ k = sceneId ∨ ts.m_scenes.contains k = true := by
        simp only [TestScenes.createScene]
        exact SceneMap.contains_put _ _ _ _
      simp only [TestScenes.applyCalls, TestScenes.applyCall, CreateCall.suppliedIds,
        List.mem_cons]
      rw [hnext] at hle hiff
      refine ⟨hle, ?_⟩
      rw [hiff, hput]
      tauto
    | nextId variant state cameraPosition sceneConfig =>
      obtain ⟨hle, hiff⟩ :=
        ih (ts.createSceneNextId variant state cameraPosition sceneConfig).2 k
      have hnext : (ts.createSceneNextId variant state cameraPosition sceneConfig).2.m_nextSceneId
          = ts.m_nextSceneId + 1 := rfl
      have hput : (ts.createSceneNextId variant state cameraPosition
          sceneConfig).2.m_scenes.contains k = true ↔
          k = ts.m_nextSceneId ∨ ts.m_scenes.contains k = true := by
        simp only [TestScenes.createSceneNextId, TestScenes.createScene]
        exact SceneMap.contains_put _ _ _ _
      simp only [TestScenes.applyCalls, TestScenes.applyCall, CreateCall.suppliedIds]
      rw [hnext] at hle hiff
      refine ⟨Nat.le_of_succ_le hle, ?_⟩
      rw [hiff, hput]
      constructor
      · rintro ((h | h) | h | ⟨h1, h2⟩)
        · exact Or.inr (Or.inr ⟨Nat.le_of_eq h.symm, h ▸ hle⟩)
        · exact Or.inl h
        · exact Or.inr (Or.inl h)
        · exact Or.inr (Or.inr ⟨Nat.le_of_succ_le h1, h2⟩)
      · rintro (h | h | ⟨h1, h2⟩)
        · exact Or.inl (Or.inr h)
        · exact Or.inr (Or.inl h)
        · rcases Nat.eq_or_lt_of_le h1 with heq | hlt
          · exact Or.inl (Or.inl heq.symm)
          · exact Or.inr (Or.inr ⟨hlt, h2⟩)

/-- Claim C5, as stated, fails: after `createScene` with the explicit identity `1` on a fresh
registry, identity `1` is registered; the next auto-assigning `createScene` returns `1` and the
pair stored under `1` is replaced. -/
theorem C5_auto_identity_counterexample :
    ((TestScenes.fresh echoClient).applyCalls
        [CreateCall.withId 0 0 1 ⟨0, 0, 0⟩ ⟨0⟩]).m_scenes.contains 1 = true ∧
      (((TestScenes.fresh echoClient).applyCalls
        [CreateCall.withId 0 0 1 ⟨0, 0, 0⟩ ⟨0⟩]).createSceneNextId 0 7 ⟨0, 0, 0⟩ ⟨0⟩).1 = 1 ∧
      (((TestScenes.fresh echoClient).applyCalls
        [CreateCall.withId 0 0 1 ⟨0, 0, 0⟩ ⟨0⟩]).createSceneNextId
          0 7 ⟨0, 0, 0⟩ ⟨0⟩).2.m_scenes.get 1
        ≠ ((TestScenes.fresh echoClient).applyCalls
            [CreateCall.withId 0 0 1 ⟨0, 0, 0⟩ ⟨0⟩]).m_scenes.get 1 := by
  decide

/-- Claim C5, amended.  For every registry state reached from a fresh registry by any sequence of
`createScene` calls, with explicit and with auto-assigned identities, the identity returned by an
auto-assigning `createScene` call is registered before that call if and only if one of the earlier
calls supplied that identity explicitly.  So the returned identity is unused, and the call
replaces no pair, exactly when the current value of the counter was never supplied explicitly. -/
theorem C5_auto_identity_registered_iff_supplied (client : RamsesClient)
    (calls : List CreateCall) (variant state : Nat) (cameraPosition : Vector3)
    (sceneConfig : SceneConfig) :
    ((TestScenes.fresh client).applyCalls calls).m_scenes.contains
        ((((TestScenes.fresh client).applyCalls calls).createSceneNextId
          variant state cameraPosition sceneConfig).1) = true ↔
      (((TestScenes.fresh client).applyCalls calls).createSceneNextId
          variant state cameraPosition sceneConfig).1 ∈ CreateCall.suppliedIds calls := by
  have hid : (((TestScenes.fresh client).applyCalls calls).createSceneNextId
      variant state cameraPosition sceneConfig).1
      = ((TestScenes.fresh client).applyCalls calls).m_nextSceneId := rfl
  rw [hid]
  obtain ⟨_, hiff⟩ := TestScenes.applyCalls_registered calls (TestScenes.fresh client)
    ((TestScenes.fresh client).applyCalls calls).m_nextSceneId
  rw [hiff]
  constructor
  · rintro (h | h | ⟨_, h2⟩)
    · simp [TestScenes.fresh, SceneMap.contains, SceneMap.get] at h
    · exact h
    · exact absurd h2 (Nat.lt_irrefl _)
  · intro h
    exact Or.inr (Or.inl h)

/-- Claim C6. The precondition of `setSceneState`.  For every registry state, identity and state
value, `setSceneState` is a precondition violation exactly when the identity is not registered or
the test-logic pointer stored under it is null.  Otherwise it returns a registry in which the test
logic stored under the identity has received the state transition with the given value, the entry
of every other identity is as before, the set of registered identities is as before, and the
counter and the client are as before. -/
theorem C6_setSceneState_precondition (ts : TestScenes) (variant : Nat) (sceneId : sceneId_t)
    (state : Nat) :
    (ts.setSceneState variant sceneId state = Except.error Violation.assertionFailed ↔
        ts.m_scenes.get sceneId = none ∨
          ∃ data, ts.m_scenes.get sceneId = some data ∧ data.integrationScene = none) ∧
      ∀ (data : SceneData) (scene : IntegrationScene),
        ts.m_scenes.get sceneId = some data → data.integrationScene = some scene →
        ∃ ts', ts.setSceneState variant sceneId state = Except.ok ts' ∧
          ts'.m_scenes.get sceneId
            = some { data with integrationScene := some (scene.setState state) } ∧
          (∀ k, k ≠ sceneId → ts'.m_scenes.get k = ts.m_scenes.get k) ∧
          (∀ k, ts'.m_scenes.contains k = ts.m_scenes.contains k) ∧
          ts'.m_nextSceneId = ts.m_nextSceneId ∧
          ts'.m_client.requests = ts.m_client.requests := by
  constructor
  · cases hget : ts.m_scenes.get sceneId with
    | none => simp [TestScenes.setSceneState, SceneMap.contains, hget]
    | some data =>
      cases hint : data.integrationScene with
      | none => simp [TestScenes.setSceneState, SceneMap.contains, hget, hint]
      | some scene => simp [TestScenes.setSceneState, SceneMap.contains, hget, hint]
  · intro data scene hget hint
    refine ⟨{ ts with
              m_scenes :=
                SceneMap.updateIntegrationScene (fun scene => scene.setState state) ts.m_scenes
                  sceneId }, ?_, ?_, ?_, ?_, rfl, rfl⟩
    · simp [TestScenes.setSceneState, SceneMap.contains, hget, hint]
    · simp [SceneMap.get_updateIntegrationScene, hget, hint]
    · intro k hk
      simp [SceneMap.get_updateIntegrationScene, hk]
    · intro k
      by_cases hk : k = sceneId
      · subst hk
        simp [SceneMap.contains, SceneMap.get_updateIntegrationScene, hget]
      · simp [SceneMap.contains, SceneMap.get_updateIntegrationScene, hk]

theorem TestScenes.destroyScene_not_registered (ts : TestScenes) (sceneId : sceneId_t) :
    (ts.destroyScene sceneId).m_scenes.contains sceneId = false := by
  cases hget : ts.m_scenes.get sceneId with
  | none => simp [TestScenes.destroyScene, hget, SceneMap.contains]
  | some data => simp [TestScenes.destroyScene, hget, SceneMap.contains, SceneMap.get_remove]

theorem TestScenes.getScene_of_not_registered (ts : TestScenes) (sceneId : sceneId_t)
    (h : ts.m_scenes.contains sceneId = false) :
    ts.getScene sceneId = Except.error Violation.assertionFailed := by
  cases hget : ts.m_scenes.get sceneId with
  | none => simp [TestScenes.getScene, hget]
  | some data => simp [SceneMap.contains, hget] at h

theorem TestScenes.setSceneState_of_not_registered (ts : TestScenes) (variant : Nat)
    (sceneId : sceneId_t) (state : Nat) (h : ts.m_scenes.contains sceneId = false) :
    ts.setSceneState variant sceneId state = Except.error Violation.assertionFailed := by
  simp [TestScenes.setSceneState, h]

/-- Claim C12. Lifecycle.  For every registry state and identity, `createScene` with that identity
registers it, and after the following `destroyScene` of the identity it is no longer registered:
`getScene` and `setSceneState` on it both violate their precondition.  The same holds for the
identity returned by the auto-assigning `createScene`. -/
theorem C12_lifecycle (ts : TestScenes) (variant state : Nat) (sceneId : sceneId_t)
    (cameraPosition : Vector3) (sceneConfig : SceneConfig) :
    ((ts.createScene variant state sceneId cameraPosition sceneConfig).m_scenes.contains sceneId
        = true ∧
      ((ts.createScene variant state sceneId cameraPosition sceneConfig).destroyScene
          sceneId).m_scenes.contains sceneId = false ∧
      ((ts.createScene variant state sceneId cameraPosition sceneConfig).destroyScene
          sceneId).getScene sceneId = Except.error Violation.assertionFailed ∧
      ∀ v s, ((ts.createScene variant state sceneId cameraPosition sceneConfig).destroyScene
          sceneId).setSceneState v sceneId s = Except.error Violation.assertionFailed) ∧
    ((ts.createSceneNextId variant state cameraPosition sceneConfig).2.m_scenes.contains
          (ts.createSceneNextId variant state cameraPosition sceneConfig).1 = true ∧
      ((ts.createSceneNextId variant state cameraPosition sceneConfig).2.destroyScene
          (ts.createSceneNextId variant state cameraPosition sceneConfig).1).getScene
          (ts.createSceneNextId variant state cameraPosition sceneConfig).1
        = Except.error Violation.assertionFailed ∧
      ∀ v s, ((ts.createSceneNextId variant state cameraPosition sceneConfig).2.destroyScene
          (ts.createSceneNextId variant state cameraPosition sceneConfig).1).setSceneState v
          (ts.createSceneNextId variant state cameraPosition sceneConfig).1 s
        = Except.error Violation.assertionFailed) := by
  refine ⟨⟨?_, TestScenes.destroyScene_not_registered _ _, ?_, ?_⟩, ?_, ?_, ?_⟩
  · simp [TestScenes.createScene, SceneMap.contains, SceneMap.get_put]
  · exact TestScenes.getScene_of_not_registered _ _ (TestScenes.destroyScene_not_registered _ _)
  · intro v s
    exact TestScenes.setSceneState_of_not_registered _ _ _ _
      (TestScenes.destroyScene_not_registered _ _)
  · simp [TestScenes.createSceneNextId, TestScenes.createScene, SceneMap.contains,
      SceneMap.get_put]
  · exact TestScenes.getScene_of_not_registered _ _ (TestScenes.destroyScene_not_registered _ _)
  · intro v s
    exact TestScenes.setSceneState_of_not_registered _ _ _ _
      (TestScenes.destroyScene_not_registered _ _)

/-- Claim C13. Idempotent destroy.  For every registry state and every identity that is not
registered, `destroyScene` returns the registry as it was: every entry, the identity counter and
the client are unchanged.  In particular a second `destroyScene` of an identity changes nothing
after the first one. -/
theorem C13_idempotent_destroy (ts : TestScenes) (sceneId : sceneId_t)
    (hnot : ts.m_scenes.contains sceneId = false) :
    ts.destroyScene sceneId = ts ∧
      (∀ k, (ts.destroyScene sceneId).m_scenes.get k = ts.m_scenes.get k) ∧
      (ts.destroyScene sceneId).m_nextSceneId = ts.m_nextSceneId ∧
      ∀ other, ((ts.destroyScene other).destroyScene other) = ts.destroyScene other := by
  have hno : ∀ (t : TestScenes) (k : sceneId_t), t.m_scenes.contains k = false →
      t.destroyScene k = t := by
    intro t k hk
    cases hget : t.m_scenes.get k with
    | none => simp [TestScenes.destroyScene, hget]
    | some data => simp [SceneMap.contains, hget] at hk
  have heq := hno ts sceneId hnot
  refine ⟨heq, ?_, ?_, ?_⟩
  · intro k; rw [heq]
  · rw [heq]
  · intro other
    exact hno _ _ (TestScenes.destroyScene_not_registered ts other)

/-- Witness of claim C13: identity `3` was never registered in a registry that holds identity
`5`. -/
theorem C13_idempotent_destroy_witness :
    (((TestScenes.fresh echoClient).createScene 0 0 5 ⟨0, 0, 0⟩ ⟨0⟩).destroyScene 3).m_scenes.get 5
      = ((TestScenes.fresh echoClient).createScene 0 0 5 ⟨0, 0, 0⟩ ⟨0⟩).m_scenes.get 5 :=
  (C13_idempotent_destroy ((TestScenes.fresh echoClient).createScene 0 0 5 ⟨0, 0, 0⟩ ⟨0⟩) 3
    (by decide)).2.1 5

/-- Claim C18. Frame of explicit-identity creation.  For every registry state and identity,
`createScene` with the explicit identity leaves the identity counter unchanged and leaves the
entry of every other identity unchanged; afterwards the identity is registered, with the scene
pointer delivered by the client for this request and a test logic constructed from that scene, the
given initial state and the given camera position. -/
theorem C18_explicit_creation_frame (ts : TestScenes) (variant state : Nat)
    (sceneId : sceneId_t) (cameraPosition : Vector3) (sceneConfig : SceneConfig) :
    (ts.createScene variant state sceneId cameraPosition sceneConfig).m_nextSceneId
        = ts.m_nextSceneId ∧
      (∀ k, k ≠ sceneId →
        (ts.createScene variant state sceneId cameraPosition sceneConfig).m_scenes.get k
          = ts.m_scenes.get k) ∧
      (ts.createScene variant state sceneId cameraPosition sceneConfig).m_scenes.contains sceneId
        = true ∧
      ∃ data,
        (ts.createScene variant state sceneId cameraPosition sceneConfig).m_scenes.get sceneId
          = some data ∧
        data.clientScene = (ts.m_client.createScene sceneId sceneConfig).1 ∧
        data.integrationScene
          = some (IntegrationScene.construct variant
              (ts.m_client.createScene sceneId sceneConfig).1 state cameraPosition) := by
  refine ⟨rfl, ?_, ?_, ?_⟩
  · intro k hk
    simp [TestScenes.createScene, SceneMap.get_put, hk]
  · simp [TestScenes.createScene, SceneMap.contains, SceneMap.get_put]
  · exact ⟨{ clientScene := (ts.m_client.createScene sceneId sceneConfig).1
             integrationScene :=
               some (IntegrationScene.construct variant
                 (ts.m_client.createScene sceneId sceneConfig).1 state cameraPosition) },
      by simp [TestScenes.createScene, SceneMap.get_put], rfl, rfl⟩

theorem SceneMap.mem_keys_remove (m : SceneMap) (k a : sceneId_t)
    (h : a ∈ (SceneMap.remove m k).map Prod.fst) : a ∈ m.map Prod.fst ∧ a ≠ k := by
  induction m with
  | nil => simp [SceneMap.remove] at h
  | cons e m ih =>
    obtain ⟨b, v⟩ := e
    by_cases hb : b = k
    · simp only [SceneMap.remove, hb, if_true] at h
      exact ⟨List.mem_map.mpr (by
        obtain ⟨x, hx, hxa⟩ := List.mem_map.mp (ih h).1
        exact ⟨x, List.mem_cons_of_mem _ hx, hxa⟩), (ih h).2⟩
    · simp only [SceneMap.remove, if_neg hb, List.map_cons, List.mem_cons] at h
      rcases h with h | h
      · subst h
        exact ⟨by simp, hb⟩
      · exact ⟨by
          simp only [List.map_cons, List.mem_cons]
          exact Or.inr (ih h).1, (ih h).2⟩

theorem SceneMap.nodup_keys_remove (m : SceneMap) (k : sceneId_t)
    (h : (m.map Prod.fst).Nodup) : ((SceneMap.remove m k).map Prod.fst).Nodup := by
  induction m with
  | nil => simp [SceneMap.remove]
  | cons e m ih =>
    obtain ⟨b, v⟩ := e
    simp only [List.map_cons, List.nodup_cons] at h
    by_cases hb : b = k
    · simp only [SceneMap.remove, hb, if_true]
      exact ih h.2
    · simp only [SceneMap.remove, if_neg hb, List.map_cons, List.nodup_cons]
      exact ⟨fun hc => h.1 (SceneMap.mem_keys_remove m k b hc).1, ih h.2⟩

theorem SceneMap.nodup_keys_put (m : SceneMap) (k : sceneId_t) (v : SceneData)
    (h : (m.map Prod.fst).Nodup) : ((m.put k v).map Prod.fst).Nodup := by
  simp only [SceneMap.put, List.map_cons, List.nodup_cons]
  exact ⟨fun hc => (SceneMap.mem_keys_remove m k k hc).2 rfl, SceneMap.nodup_keys_remove m k h⟩

theorem SceneMap.keys_updateIntegrationScene (f : IntegrationScene → IntegrationScene)
    (m : SceneMap) (k : sceneId_t) :
    (SceneMap.updateIntegrationScene f m k).map Prod.fst = m.map Prod.fst := by
  induction m with
  | nil => simp [SceneMap.updateIntegrationScene]
  | cons e m ih =>
    obtain ⟨b, v⟩ := e
    by_cases hb : b = k
    · simp [SceneMap.updateIntegrationScene, hb, ih]
    · simp [SceneMap.updateIntegrationScene, hb, ih]

/-- One call keeps the registry well formed: the behaviour of the client is the same, no identity
occurs twice, every stored test-logic pointer is non-null, and every stored scene pointer is
non-null if the client delivers a scene on every request. -/
theorem TestScenes.perform_invariant (ts ts' : TestScenes) (c : RegistryCall)
    (hstep : ts.perform c = Except.ok ts')
    (hnodup : (ts.m_scenes.map Prod.fst).Nodup)
    (hlogic : ∀ k d, ts.m_scenes.get k = some d → d.integrationScene ≠ none)
    (hscene : (∀ q id cfg, ts.m_client.respond q id cfg ≠ none) →
      ∀ k d, ts.m_scenes.get k = some d → d.clientScene ≠ none) :
    ts'.m_client.respond = ts.m_client.respond ∧
      (ts'.m_scenes.map Prod.fst).Nodup ∧
      (∀ k d, ts'.m_scenes.get k = some d → d.integrationScene ≠ none) ∧
      ((∀ q id cfg, ts.m_client.respond q id cfg ≠ none) →
        ∀ k d, ts'.m_scenes.get k = some d → d.clientScene ≠ none) := by
  have hcreate : ∀ (t : TestScenes) (variant state : Nat) (sceneId : sceneId_t)
      (cameraPosition : Vector3) (sceneConfig : SceneConfig),
      t.m_client = ts.m_client → t.m_scenes = ts.m_scenes →
      (t.createScene variant state sceneId cameraPosition sceneConfig).m_client.respond
          = ts.m_client.respond ∧
        ((t.createScene variant state sceneId cameraPosition sceneConfig).m_scenes.map
          Prod.fst).Nodup ∧
        (∀ k d, (t.createScene variant state sceneId cameraPosition sceneConfig).m_scenes.get k
          = some d → d.integrationScene ≠ none) ∧
        ((∀ q id cfg, ts.m_client.respond q id cfg ≠ none) →
          ∀ k d, (t.createScene variant state sceneId cameraPosition sceneConfig).m_scenes.get k
            = some d → d.clientScene ≠ none) := by
    intro t variant state sceneId cameraPosition sceneConfig hc hm
    refine ⟨?_, ?_, ?_, ?_⟩
    · simp [TestScenes.createScene, RamsesClient.createScene, hc]
    · simp only [TestScenes.createScene, hm]
      exact SceneMap.nodup_keys_put _ _ _ hnodup
    · intro k d hget
      simp only [TestScenes.createScene, hm, SceneMap.get_put] at hget
      split_ifs at hget with hk
      · cases hget; simp
      · exact hlogic k d hget
    · intro hresp k d hget
      simp only [TestScenes.createScene, hm, SceneMap.get_put] at hget
      split_ifs at hget with hk
      · cases hget
        simp only [RamsesClient.createScene, hc]
        exact hresp _ _ _
      · exact hscene hresp k d hget
  cases c with
  | create call =>
    simp only [TestScenes.perform, Except.ok.injEq] at hstep
    subst hstep
    cases call with
    | withId variant state sceneId cameraPosition sceneConfig =>
      exact hcreate ts variant state sceneId cameraPosition sceneConfig rfl rfl
    | nextId variant state cameraPosition sceneConfig =>
      exact hcreate { ts with m_nextSceneId := ts.m_nextSceneId + 1 } variant state
        ts.m_nextSceneId cameraPosition sceneConfig rfl rfl
  | setState variant sceneId state =>
    simp only [TestScenes.perform, TestScenes.setSceneState] at hstep
    split_ifs at hstep with h1
    split at hstep
    · cases hstep
    · split_ifs at hstep with h2
      simp only [Except.ok.injEq] at hstep
      subst hstep
      refine ⟨rfl, ?_, ?_, ?_⟩
      · simp only [SceneMap.keys_updateIntegrationScene]
        exact hnodup
      · intro k d hget
        simp only [SceneMap.get_updateIntegrationScene] at hget
        split_ifs at hget with hk
        · cases hold : ts.m_scenes.get k with
          | none => rw [hold] at hget; simp at hget
          | some old =>
            rw [hold] at hget
            simp only [Option.map_some', Option.some.injEq] at hget
            subst hget
            have := hlogic k old hold
            cases hint : old.integrationScene with
            | none => exact absurd hint this
            | some scene => simp
        · exact hlogic k d hget
      · intro hresp k d hget
        simp only [SceneMap.get_updateIntegrationScene] at hget
        split_ifs at hget with hk
        · cases hold : ts.m_scenes.get k with
          | none => rw [hold] at hget; simp at hget
          | some old =>
            rw [hold] at hget
            simp only [Option.map_some', Option.some.injEq] at hget
            subst hget
            exact hscene hresp k old hold
        · exact hscene hresp k d hget

/-- The invariant of `TestScenes.perform_invariant` along a sequence of calls. -/
theorem TestScenes.performAll_invariant (calls : List RegistryCall) :
    ∀ (ts ts' : TestScenes), ts.performAll calls = Except.ok ts' →
      (ts.m_scenes.map Prod.fst).Nodup →
      (∀ k d, ts.m_scenes.get k = some d → d.integrationScene ≠ none) →
      ((∀ q id cfg, ts.m_client.respond q id cfg ≠ none) →
        ∀ k d, ts.m_scenes.get k = some d → d.clientScene ≠ none) →
      (ts'.m_scenes.map Prod.fst).Nodup ∧
        (∀ k d, ts'.m_scenes.get k = some d → d.integrationScene ≠ none) ∧
        ((∀ q id cfg, ts.m_client.respond q id cfg ≠ none) →
          ∀ k d, ts'.m_scenes.get k = some d → d.clientScene ≠ none) := by
  induction calls with
  | nil =>
    intro ts ts' hrun hnodup hlogic hscene
    simp only [TestScenes.performAll, Except.ok.injEq] at hrun
    subst hrun
    exact ⟨hnodup, hlogic, hscene⟩
  | cons c cs ih =>
    intro ts ts' hrun hnodup hlogic hscene
    simp only [TestScenes.performAll] at hrun
    cases hstep : ts.perform c with
    | error e => rw [hstep] at hrun; cases hrun
    | ok ts1 =>
      rw [hstep] at hrun
      obtain ⟨hresp, h1, h2, h3⟩ :=
        TestScenes.perform_invariant ts ts1 c hstep hnodup hlogic hscene
      obtain ⟨g1, g2, g3⟩ := ih ts1 ts' hrun h1 h2 (by rw [hresp]; exact h3)
      exact ⟨g1, g2, by rw [hresp] at g3; exact g3⟩

/-- In every registry state reached from a fresh registry by `createScene` calls of both overloads
and `setSceneState` calls, no identity is stored twice and the test-logic pointer of every
registered pair is non-null; with a client that delivers a scene on every request, so that no call
dereferences a null pointer, the client-scene pointer of every registered pair is non-null as
well. -/
theorem TestScenes.performAll_fresh_invariant (client : RamsesClient)
    (calls : List RegistryCall) (ts : TestScenes)
    (hrun : (TestScenes.fresh client).performAll calls = Except.ok ts) :
    (ts.m_scenes.map Prod.fst).Nodup ∧
      (∀ k d, ts.m_scenes.get k = some d → d.integrationScene ≠ none) ∧
      ((∀ q id cfg, client.respond q id cfg ≠ none) →
        ∀ k d, ts.m_scenes.get k = some d → d.clientScene ≠ none) := by
  have h := TestScenes.performAll_invariant calls (TestScenes.fresh client) ts hrun
    (by simp [TestScenes.fresh])
    (by intro k d hget; simp [TestScenes.fresh, SceneMap.get] at hget)
    (by intro _ k d hget; simp [TestScenes.fresh, SceneMap.get] at hget)
  exact h

/-- With a client that delivers a scene for the request, `createScene` returns the registry of
`TestScenes.createScene`. -/
theorem TestScenes.createSceneOutcome_of_delivered (ts : TestScenes) (variant state : Nat)
    (sceneId : sceneId_t) (cameraPosition : Vector3) (sceneConfig : SceneConfig)
    (scene : Scene) (h : (ts.m_client.createScene sceneId sceneConfig).1 = some scene) :
    ts.createSceneOutcome variant state sceneId cameraPosition sceneConfig
      = CreateSceneOutcome.returned
          (ts.createScene variant state sceneId cameraPosition sceneConfig) := by
  simp [TestScenes.createSceneOutcome, h]

/-- Claim C15. Evaluation at a client that delivers no scene: on a fresh registry `createScene`
with the explicit identity `1` dereferences the null pointer it received from the client, and so
does the auto-assigning `createScene`, which passes the counter value `1` to the same method.  The
call does not end in a precondition violation, which is what would keep pairs with a null member
out of the registry. -/
theorem C15_null_scene_dereferenced :
    (TestScenes.fresh failingClient).createSceneOutcome 0 0 1 ⟨0, 0, 0⟩ ⟨0⟩
        = CreateSceneOutcome.nullDereference ∧
      (TestScenes.fresh failingClient).m_nextSceneId = 1 ∧
      ((TestScenes.fresh failingClient).m_client.createScene
          (TestScenes.fresh failingClient).m_nextSceneId ⟨0⟩).1 = none :=
  ⟨rfl, rfl, rfl⟩
